import Mathlib

/-! Verification of the standings computation and tie-breaking engine of the
thamesford slo-pitch repository (src/core/models.py and src/core/services.py).

The embedding is shallow: every Python function of the core is translated to a
Lean function over explicit in-memory game and stats records.  Django query
sets become list filters; Django model instances become structures carrying the
primary key in an `id` field (Django compares model instances by primary key).
Python floats are modelled as exact rationals.  A Python run-time TypeError
(comparison of an integer score with None) is modelled by an Option-valued
function returning `none`; fuel makes the recursive resolver structurally
terminating, and fuel exhaustion is also `none`.
-/

namespace SloPitch

/-- Identifier of a team (Django primary key). -/
abbrev TeamId := Nat

/-- Game model (src/core/models.py, class Game): home and away team, season,
nullable integer scores, optional cancellation reason.  The cancellation field
is carried to show that no aggregation function reads it. -/
structure Game where
  season : Nat
  homeTeam : TeamId
  awayTeam : TeamId
  homeScore : Option Int
  awayScore : Option Int
  cancellation : Option Nat
deriving DecidableEq, Repr

/-- Game.is_completed: both scores are non-null. -/
def Game.is_completed (g : Game) : Bool :=
  g.homeScore.isSome && g.awayScore.isSome

/-- Filter of Team.games_played (models.py lines 60 to 64): the team appears as
home or away, and only games with a null HOME score are excluded.  The source
does not test the away score here. -/
def games_played_filter (team : TeamId) (g : Game) : Bool :=
  (g.homeTeam == team || g.awayTeam == team) && g.homeScore.isSome

/-- Team.games_played: completed games of the team per the home-score-only
null filter.  Ordering by start time is irrelevant to every aggregate proved
here, so the input order is kept. -/
def games_played (games : List Game) (team : TeamId) : List Game :=
  games.filter (games_played_filter team)

/-- Stats model (src/core/models.py, class Stats).  The `id` field is the
primary key; Django compares Stats instances by it. -/
structure Stats where
  id : Nat
  team : TeamId
  season : Nat
  wins : Nat
  losses : Nat
  ties : Nat
  points : Nat
  percentage : ℚ
  runs_scored : Int
  runs_against : Int
  tie_breaker_rank : Nat
  tie_breaker_reason : String
  tie_breaker_symbol : String
deriving DecidableEq, Repr

/-- Stats.games_played: count of the games of the team in the season that pass
the home-score-only null filter. -/
def stats_games_played (games : List Game) (team : TeamId) (season : Nat) : Nat :=
  ((games_played games team).filter (fun g => g.season == season)).length

/-- Hypothesis used by most theorems: every game with a non-null home score
also has a non-null away score.  Where this fails, the Python source raises a
TypeError when it compares an integer score with None (see the C6 analysis). -/
def scoresConsistent (games : List Game) : Bool :=
  games.all fun g => !g.homeScore.isSome || g.awayScore.isSome

/-- One iteration of the loop of Stats.head_to_head_record: classify a game as
win, loss or tie for `team`.  In Python, `home_score == away_score` is False
when exactly one side is None and True when both are None, and the subsequent
order comparison of an integer with None raises a TypeError (`none` here). -/
def gameWLT (team : TeamId) (g : Game) : Option (Nat × Nat × Nat) :=
  match g.homeScore, g.awayScore with
  | none, none => some (0, 0, 1)
  | some h, some a =>
    if h == a then some (0, 0, 1)
    else if (g.homeTeam == team && h > a) || (g.awayTeam == team && a > h) then
      some (1, 0, 0)
    else some (0, 1, 0)
  | _, _ => none

/-- Query of Stats.head_to_head_record (models.py lines 463 to 469): games of
the season with a non-null home score between the two teams in either
orientation. -/
def h2h_games (games : List Game) (st : Stats) (other : TeamId) : List Game :=
  games.filter fun g =>
    g.season == st.season && g.homeScore.isSome &&
      ((g.homeTeam == st.team && g.awayTeam == other) ||
       (g.homeTeam == other && g.awayTeam == st.team))

/-- Accumulating loop of Stats.head_to_head_record. -/
def h2hLoop (team : TeamId) : List Game → Nat × Nat × Nat → Option (Nat × Nat × Nat)
  | [], acc => some acc
  | g :: gs, (w, l, t) =>
    match gameWLT team g with
    | none => none
    | some (dw, dl, dt) => h2hLoop team gs (w + dw, l + dl, t + dt)

/-- Stats.head_to_head_record: wins, losses and ties of the team of `st`
against `other` within the season of `st`. -/
def head_to_head_record (games : List Game) (st : Stats) (other : TeamId) :
    Option (Nat × Nat × Nat) :=
  h2hLoop st.team (h2h_games games st other) (0, 0, 0)

/-- Stats.head_to_head_percentage: `(w + 0.5 * t) / total`; the inner `none`
models the Python None returned when no game was played between the teams,
while the outer `none` models a TypeError inside head_to_head_record. -/
def head_to_head_percentage (games : List Game) (st : Stats) (other : TeamId) :
    Option (Option ℚ) :=
  (head_to_head_record games st other).map fun wlt =>
    let total : Nat := wlt.1 + wlt.2.1 + wlt.2.2
    if total = 0 then none
    else some (((wlt.1 : ℚ) + 1 / 2 * (wlt.2.2 : ℚ)) / (total : ℚ))

/-- Per-game signed differential of Stats.run_differential_capped, clamped to
the interval from -7 to 7; `none` models the TypeError raised when a score
needed by the subtraction is None. -/
def gameDiffCapped (team : TeamId) (g : Game) : Option Int :=
  match g.homeScore, g.awayScore with
  | some h, some a =>
    if g.homeTeam == team then some (min 7 (max (-7) (h - a)))
    else some (min 7 (max (-7) (a - h)))
  | _, _ => none

/-- Accumulating loop of Stats.run_differential_capped. -/
def rdcLoop (team : TeamId) : List Game → Int → Option Int
  | [], acc => some acc
  | g :: gs, acc =>
    match gameDiffCapped team g with
    | none => none
    | some d => rdcLoop team gs (acc + d)

/-- Stats.run_differential_capped (models.py lines 448 to 458): sum of the
per-game clamped differentials over the games of the team in the season. -/
def run_differential_capped (games : List Game) (st : Stats) : Option Int :=
  rdcLoop st.team ((games_played games st.team).filter (fun g => g.season == st.season)) 0

/-- One iteration of the loop of StatsManager.update_team_stats: increments of
wins, losses and ties, and the runs scored and against from the perspective of
`team`.  The branch order follows the source: tie first, then home win, then
away win; `none` models the TypeError that the order comparison of an integer
score with None raises. -/
def updateStep (team : TeamId) (g : Game) : Option (Nat × Nat × Nat × Int × Int) :=
  match g.homeScore, g.awayScore with
  | some h, some a =>
    if h == a then
      if g.homeTeam == team then some (0, 0, 1, h, a) else some (0, 0, 1, a, h)
    else if h > a then
      if g.homeTeam == team then some (1, 0, 0, h, a) else some (0, 1, 0, a, h)
    else
      if g.homeTeam == team then some (0, 1, 0, h, a) else some (1, 0, 0, a, h)
  | _, _ => none

/-- Accumulating loop of StatsManager.update_team_stats. -/
def updateLoop (team : TeamId) : List Game → Nat × Nat × Nat × Int × Int →
    Option (Nat × Nat × Nat × Int × Int)
  | [], acc => some acc
  | g :: gs, (w, l, t, s, a) =>
    match updateStep team g with
    | none => none
    | some (dw, dl, dt, ds, da) => updateLoop team gs (w + dw, l + dl, t + dt, s + ds, a + da)

/-- Game list of StatsManager.update_team_stats: home games then away games of
the team in the season, each filtered only on a non-null HOME score. -/
def update_games (games : List Game) (team : TeamId) (season : Nat) : List Game :=
  games.filter (fun g => g.homeTeam == team && g.season == season && g.homeScore.isSome) ++
    games.filter (fun g => g.awayTeam == team && g.season == season && g.homeScore.isSome)

/-- StatsManager.update_team_stats (models.py lines 148 to 211): recompute the
counting fields of a Stats row from the game set.  Points are `2 * w + t` and
the stored winning percentage is `w / games_played` (wins only). -/
def update_team_stats (games : List Game) (st : Stats) : Option Stats :=
  (updateLoop st.team (update_games games st.team st.season) (0, 0, 0, 0, 0)).map
    fun wlt =>
      let total : Nat := stats_games_played games st.team st.season
      { st with
        wins := wlt.1
        losses := wlt.2.1
        ties := wlt.2.2.1
        points := 2 * wlt.1 + wlt.2.2.1
        runs_scored := wlt.2.2.2.1
        runs_against := wlt.2.2.2.2
        percentage := if total > 0 then (wlt.1 : ℚ) / (total : ℚ) else 0 }

/-- Result record of StatsCalculator.calculate_team_stats (services.py). -/
structure ServiceStats where
  team : TeamId
  season : Option Nat
  wins : Nat
  losses : Nat
  ties : Nat
  games_played : Nat
  points : Nat
  percentage : ℚ
  runs_scored : Int
  runs_against : Int
  run_differential : Int
deriving DecidableEq, Repr

/-- Game filter of StatsCalculator.calculate_team_stats: the team appears on
either side, BOTH scores are non-null, and the season matches when given. -/
def service_games (games : List Game) (team : TeamId) (season : Option Nat) : List Game :=
  games.filter fun g =>
    (g.homeTeam == team || g.awayTeam == team) &&
      (g.homeScore.isSome && g.awayScore.isSome) &&
      (match season with
       | some s => g.season == s
       | none => true)

/-- Loop body of StatsCalculator.calculate_team_stats: scores read from the
side of the team; the filter guarantees both scores are present, and the
`getD 0` defaults are never read on filtered games. -/
def serviceStep (team : TeamId) (g : Game) (acc : Nat × Nat × Nat × Int × Int) :
    Nat × Nat × Nat × Int × Int :=
  let is_home := g.homeTeam == team
  let team_score := if is_home then g.homeScore.getD 0 else g.awayScore.getD 0
  let opponent_score := if is_home then g.awayScore.getD 0 else g.homeScore.getD 0
  let (w, l, t, s, a) := acc
  if team_score > opponent_score then (w + 1, l, t, s + team_score, a + opponent_score)
  else if team_score < opponent_score then (w, l + 1, t, s + team_score, a + opponent_score)
  else (w, l, t + 1, s + team_score, a + opponent_score)

/-- StatsCalculator.calculate_team_stats (services.py lines 11 to 67): pure
aggregation over completed games; percentage is `wins / games_played` (wins
only) when at least one game was played, else 0. -/
def calculate_team_stats (games : List Game) (team : TeamId) (season : Option Nat) :
    ServiceStats :=
  let wlt := (service_games games team season).foldl (fun acc g => serviceStep team g acc)
    (0, 0, 0, 0, 0)
  let w := wlt.1
  let l := wlt.2.1
  let t := wlt.2.2.1
  let gp := w + l + t
  { team := team
    season := season
    wins := w
    losses := l
    ties := t
    games_played := gp
    points := 2 * w + t
    percentage := if gp > 0 then (w : ℚ) / (gp : ℚ) else 0
    runs_scored := wlt.2.2.2.1
    runs_against := wlt.2.2.2.2
    run_differential := wlt.2.2.2.1 - wlt.2.2.2.2 }

/-- Lexicographic comparison of triples, the order Python uses on key tuples. -/
def lex3 {α β γ : Type} [LinearOrder α] [LinearOrder β] [LinearOrder γ]
    (x y : α × β × γ) : Prop :=
  x.1 < y.1 ∨ (x.1 = y.1 ∧ (x.2.1 < y.2.1 ∨ (x.2.1 = y.2.1 ∧ x.2.2 ≤ y.2.2)))

instance {α β γ : Type} [LinearOrder α] [LinearOrder β] [LinearOrder γ]
    (x y : α × β × γ) : Decidable (lex3 x y) := by
  unfold lex3; infer_instance

/-- lex3 is total. -/
theorem lex3_total {α β γ : Type} [LinearOrder α] [LinearOrder β] [LinearOrder γ]
    (x y : α × β × γ) : lex3 x y ∨ lex3 y x := by
  unfold lex3
  rcases lt_trichotomy x.1 y.1 with h | h | h
  · exact Or.inl (Or.inl h)
  · rcases lt_trichotomy x.2.1 y.2.1 with h2 | h2 | h2
    · exact Or.inl (Or.inr ⟨h, Or.inl h2⟩)
    · rcases le_total x.2.2 y.2.2 with h3 | h3
      · exact Or.inl (Or.inr ⟨h, Or.inr ⟨h2, h3⟩⟩)
      · exact Or.inr (Or.inr ⟨h.symm, Or.inr ⟨h2.symm, h3⟩⟩)
    · exact Or.inr (Or.inr ⟨h.symm, Or.inl h2⟩)
  · exact Or.inr (Or.inl h)

/-- lex3 is transitive. -/
theorem lex3_trans {α β γ : Type} [LinearOrder α] [LinearOrder β] [LinearOrder γ]
    {x y z : α × β × γ} (hxy : lex3 x y) (hyz : lex3 y z) : lex3 x z := by
  unfold lex3 at *
  rcases hxy with h1 | ⟨e1, h1⟩
  · rcases hyz with h2 | ⟨e2, _⟩
    · exact Or.inl (h1.trans h2)
    · exact Or.inl (e2 ▸ h1)
  · rcases hyz with h2 | ⟨e2, h2⟩
    · exact Or.inl (e1 ▸ h2)
    · refine Or.inr ⟨e1.trans e2, ?_⟩
      rcases h1 with h1 | ⟨f1, h1⟩
      · rcases h2 with h2 | ⟨f2, _⟩
        · exact Or.inl (h1.trans h2)
        · exact Or.inl (f2 ▸ h1)
      · rcases h2 with h2 | ⟨f2, h2⟩
        · exact Or.inl (f1 ▸ h2)
        · exact Or.inr ⟨f1.trans f2, h1.trans h2⟩

/-- Write the two tie-break annotation fields of a Stats row; everything else,
in particular the primary key, is unchanged. -/
def stampTB (s : Stats) (reason symbol : String) : Stats :=
  { s with tie_breaker_reason := reason, tie_breaker_symbol := symbol }

/-- Reset of the tie-break fields done by apply_spo_standings before sorting. -/
def clearTB (s : Stats) : Stats :=
  { s with tie_breaker_rank := 0, tie_breaker_reason := "", tie_breaker_symbol := "" }

/-- StatsManager.break_two_way_tie (models.py lines 277 to 344): the ordered
two-way rule chain.  `none` models a Python TypeError: either inside a
head-to-head or capped-differential computation, or when the source compares a
float percentage with None on line 286. -/
def break_two_way_tie (games : List Game) (team1 team2 : Stats) : Option (List Stats) :=
  match head_to_head_percentage games team1 team2.team,
        head_to_head_percentage games team2 team1.team with
  | none, _ => none
  | _, none => none
  | some p1, some p2 =>
    if p1.isSome && p1 != p2 then
      match p1, p2 with
      | some q1, some q2 =>
        let (winner, loser) := if q1 > q2 then (team1, team2) else (team2, team1)
        some [stampTB winner "Head-to-head record" "*",
              stampTB loser "Head-to-head record" "*"]
      | _, _ => none
    else
      match run_differential_capped games team1, run_differential_capped games team2 with
      | none, _ => none
      | _, none => none
      | some d1, some d2 =>
        if d1 != d2 then
          let (winner, loser) := if d1 > d2 then (team1, team2) else (team2, team1)
          some [stampTB winner "Run differential" "**",
                stampTB loser "Run differential" "**"]
        else if team1.runs_against != team2.runs_against then
          let (winner, loser) :=
            if team1.runs_against < team2.runs_against then (team1, team2) else (team2, team1)
          some [stampTB winner "Fewest runs against" "***",
                stampTB loser "Fewest runs against" "***"]
        else if team1.runs_scored != team2.runs_scored then
          let (winner, loser) :=
            if team1.runs_scored > team2.runs_scored then (team1, team2) else (team2, team1)
          some [stampTB winner "Most runs scored" "****",
                stampTB loser "Most runs scored" "****"]
        else
          some [stampTB team1 "Requires manual resolution" "†",
                stampTB team2 "Requires manual resolution" "†"]

/-- Inner loop of the dominant-winner scan of break_multi_way_tie: the check
stops with False at the first other member against which the head-to-head
percentage is undefined (None) or not strictly above one half. -/
def beat_all_others (games : List Game) (team : Stats) : List Stats → Option Bool
  | [] => some true
  | other :: rest =>
    if team.id == other.id then beat_all_others games team rest
    else
      match head_to_head_percentage games team other.team with
      | none => none
      | some none => some false
      | some (some q) =>
        if q ≤ 1 / 2 then some false else beat_all_others games team rest

/-- Inner loop of the dominated-loser scan: the check stops with False at the
first other member with an undefined percentage or one not strictly below one
half. -/
def lost_to_all_others (games : List Game) (team : Stats) : List Stats → Option Bool
  | [] => some true
  | other :: rest =>
    if team.id == other.id then lost_to_all_others games team rest
    else
      match head_to_head_percentage games team other.team with
      | none => none
      | some none => some false
      | some (some q) =>
        if q ≥ 1 / 2 then some false else lost_to_all_others games team rest

/-- First team of the group that beat all the others, scanning in list order. -/
def find_dominant (games : List Game) (all : List Stats) : List Stats → Option (Option Stats)
  | [] => some none
  | t :: rest =>
    match beat_all_others games t all with
    | none => none
    | some true => some (some t)
    | some false => find_dominant games all rest

/-- First team of the group that lost to all the others, scanning in list
order. -/
def find_dominated (games : List Game) (all : List Stats) : List Stats → Option (Option Stats)
  | [] => some none
  | t :: rest =>
    match lost_to_all_others games t all with
    | none => none
    | some true => some (some t)
    | some false => find_dominated games all rest

/-- Key order of the fallback sort of break_multi_way_tie, on pairs of a Stats
row and its precomputed capped run differential: capped differential
descending, runs against ascending, runs scored descending. -/
def fallbackRel (x y : Stats × Int) : Prop :=
  lex3 (-x.2, x.1.runs_against, -x.1.runs_scored) (-y.2, y.1.runs_against, -y.1.runs_scored)

instance : DecidableRel fallbackRel := by
  unfold fallbackRel; infer_instance

instance : IsTotal (Stats × Int) fallbackRel :=
  ⟨fun _ _ => lex3_total _ _⟩

instance : IsTrans (Stats × Int) fallbackRel :=
  ⟨fun _ _ _ => lex3_trans⟩

/-- StatsManager.break_multi_way_tie (models.py lines 346 to 402).  The
`recurse` argument stands for the recursive call into break_tie; the multi-way
fallback decorates each row with its capped differential (Python computes the
sort key once per element) and sorts with a stable sort, as Python does. -/
def break_multi_way_tie (games : List Game) (recurse : List Stats → Option (List Stats))
    (teams : List Stats) : Option (List Stats) :=
  match find_dominant games teams teams with
  | none => none
  | some (some team) =>
    let remaining := teams.filter (fun t => !(t.id == team.id))
    (if remaining.length > 1 then recurse remaining else some remaining).map
      fun resolved => stampTB team "Beat all tied teams" "†" :: resolved
  | some none =>
    match find_dominated games teams teams with
    | none => none
    | some (some team) =>
      let remaining := teams.filter (fun t => !(t.id == team.id))
      (if remaining.length > 1 then recurse remaining else some remaining).map
        fun resolved => resolved ++ [stampTB team "Lost to all tied teams" "†"]
    | some none =>
      (teams.mapM (fun t => (run_differential_capped games t).map (fun d => (t, d)))).map
        fun keyed =>
          (List.insertionSort fallbackRel keyed).map
            fun p => stampTB p.1 "Multi-team tie resolution" "†"

/-- StatsManager.break_tie (models.py lines 265 to 275), with explicit fuel:
groups of at most one element are returned unchanged, groups of exactly two go
to the two-way chain, larger groups to the multi-way procedure.  Fuel
exhaustion returns `none`; the termination theorem shows that fuel exceeding
the group size never runs out. -/
def break_two_of (games : List Game) : List Stats → Option (List Stats)
  | t1 :: t2 :: _ => break_two_way_tie games t1 t2
  | _ => none

def break_tie (games : List Game) : Nat → List Stats → Option (List Stats)
  | 0, _ => none
  | fuel + 1, teams =>
    if teams.length ≤ 1 then some teams
    else if teams.length == 2 then break_two_of games teams
    else break_multi_way_tie games (break_tie games fuel) teams

/-- Tie detection of apply_spo_standings: identical wins, losses and ties. -/
def sameWLT (t leader : Stats) : Bool :=
  t.wins == leader.wins && t.losses == leader.losses && t.ties == leader.ties

/-- Python list.remove on Django model instances: drop the first element with
the primary key of `x`.  In the source the element is always present, so the
ValueError branch is unreachable; on an absent key this model is the identity. -/
def removeFirstById (x : Stats) : List Stats → List Stats
  | [] => []
  | y :: ys => if y.id == x.id then ys else y :: removeFirstById x ys

/-- The per-group removal loop of apply_spo_standings: remove each resolved
row from the remaining list in turn. -/
def removeAll (xs l : List Stats) : List Stats :=
  xs.foldl (fun rem x => removeFirstById x rem) l

/-- Group-consuming loop of apply_spo_standings (models.py lines 241 to 256):
collect the rows tied with the head of the remaining list, resolve them when
more than one, append in resolved order and remove them from the remaining
list.  Fuel bounds the number of iterations; each iteration removes at least
one row, so fuel equal to the list length suffices. -/
def spo_loop (games : List Game) : Nat → List Stats → Option (List Stats)
  | 0, remaining =>
    match remaining with
    | [] => some []
    | _ => none
  | fuel + 1, remaining =>
    match remaining with
    | [] => some []
    | leader :: _ =>
      let tied := remaining.filter (fun t => sameWLT t leader)
      (if tied.length == 1 then some tied else break_tie games (tied.length + 1) tied).bind
        fun resolved =>
          (spo_loop games fuel (removeAll resolved remaining)).map
            fun rest => resolved ++ rest

/-- Primary sort key of apply_spo_standings line 236: wins descending, points
descending, percentage descending (a None stored percentage reads as 0; the
model keeps percentages non-optional, so the `or 0` fallback is the value
itself). -/
def pkey (s : Stats) : ℚ × ℚ × ℚ :=
  (-(s.wins : ℚ), -(s.points : ℚ), -s.percentage)

/-- Order relation of the primary sort. -/
def primaryRel (s t : Stats) : Prop :=
  lex3 (pkey s) (pkey t)

instance : DecidableRel primaryRel := by
  unfold primaryRel; infer_instance

instance : IsTotal Stats primaryRel :=
  ⟨fun _ _ => lex3_total _ _⟩

instance : IsTrans Stats primaryRel :=
  ⟨fun _ _ _ => lex3_trans⟩

/-- Seed ordering handed to the resolver: tie-break fields cleared, then a
stable sort by the primary key, as the in-place Python sort does. -/
def spo_seed (statsList : List Stats) : List Stats :=
  List.insertionSort primaryRel (statsList.map clearTB)

/-- Rank assignment of apply_spo_standings lines 259 to 261: Python
enumerates the final standings and stores position plus one; `i` is the
current position. -/
def assignRanksFrom (i : Nat) : List Stats → List Stats
  | [] => []
  | s :: rest => { s with tie_breaker_rank := i + 1 } :: assignRanksFrom (i + 1) rest

/-- Rank assignment starting at position zero, in final order. -/
def assignRanks (l : List Stats) : List Stats :=
  assignRanksFrom 0 l

/-- StatsManager.apply_spo_standings (models.py lines 213 to 263) over an
explicit list of Stats rows for the season: clear the annotations, sort by the
primary key, consume tie groups, then assign one-based ranks. -/
def apply_spo_standings (games : List Game) (statsList : List Stats) : Option (List Stats) :=
  let seed := spo_seed statsList
  (spo_loop games seed.length seed).map assignRanks

/-- Reference totals of the head-to-head loop: componentwise sum of the
per-game win, loss and tie increments over a list of games. -/
def wltSum (team : TeamId) : List Game → Nat × Nat × Nat
  | [] => (0, 0, 0)
  | g :: gs =>
    let rest := wltSum team gs
    match gameWLT team g with
    | some wlt => (wlt.1 + rest.1, wlt.2.1 + rest.2.1, wlt.2.2 + rest.2.2)
    | none => rest

/-- Games of the season between the two teams with BOTH scores present. -/
def completed_h2h (games : List Game) (st : Stats) (other : TeamId) : List Game :=
  games.filter fun g =>
    g.season == st.season && g.is_completed &&
      ((g.homeTeam == st.team && g.awayTeam == other) ||
       (g.homeTeam == other && g.awayTeam == st.team))

/-- Defined-and-strictly-above-one-half head-to-head test; False whenever the
percentage is undefined. -/
def h2hDefGT (games : List Game) (t o : Stats) : Bool :=
  match head_to_head_percentage games t o.team with
  | some (some q) => decide (q > 1 / 2)
  | _ => false

/-- Defined-and-strictly-below-one-half head-to-head test; False whenever the
percentage is undefined. -/
def h2hDefLT (games : List Game) (t o : Stats) : Bool :=
  match head_to_head_percentage games t o.team with
  | some (some q) => decide (q < 1 / 2)
  | _ => false

/-- In a score-consistent game set, a non-null home score forces a non-null
away score. -/
theorem consistent_away {games : List Game} (hc : scoresConsistent games = true) {g : Game}
    (hg : g ∈ games) (hh : g.homeScore.isSome = true) : g.awayScore.isSome = true := by
  have h1 := List.all_eq_true.mp hc g hg
  rw [hh] at h1
  simpa using h1

/-- The game classification is defined when both scores are present. -/
theorem gameWLT_isSome {team : TeamId} {g : Game} (hh : g.homeScore.isSome = true)
    (ha : g.awayScore.isSome = true) : (gameWLT team g).isSome = true := by
  rcases Option.isSome_iff_exists.mp hh with ⟨h, eh⟩
  rcases Option.isSome_iff_exists.mp ha with ⟨a, ea⟩
  simp only [gameWLT, eh, ea]
  split
  · rfl
  · split <;> rfl

/-- A defined game classification has exactly one unit increment. -/
theorem gameWLT_sum {team : TeamId} {g : Game} {wlt : Nat × Nat × Nat}
    (h : gameWLT team g = some wlt) : wlt.1 + wlt.2.1 + wlt.2.2 = 1 := by
  unfold gameWLT at h
  split at h
  · simp only [Option.some.injEq] at h; subst h; rfl
  · split at h
    · simp only [Option.some.injEq] at h; subst h; rfl
    · split at h
      · simp only [Option.some.injEq] at h; subst h; rfl
      · simp only [Option.some.injEq] at h; subst h; rfl
  · cases h

/-- What the head-to-head loop computes when every game classifies. -/
theorem h2hLoop_eq (team : TeamId) :
    ∀ (gs : List Game) (acc : Nat × Nat × Nat),
      (∀ g ∈ gs, (gameWLT team g).isSome = true) →
      h2hLoop team gs acc =
        some (acc.1 + (wltSum team gs).1, acc.2.1 + (wltSum team gs).2.1,
              acc.2.2 + (wltSum team gs).2.2)
  | [], acc, _ => by simp [h2hLoop, wltSum]
  | g :: gs, (w, l, t), hall => by
    rcases Option.isSome_iff_exists.mp (hall g (by simp)) with ⟨wlt, ewlt⟩
    rcases wlt with ⟨dw, dl, dt⟩
    simp only [h2hLoop, ewlt, wltSum]
    rw [h2hLoop_eq team gs _ (fun g hg => hall g (List.mem_cons_of_mem _ hg))]
    simp only [Option.some.injEq, Prod.mk.injEq]
    omega

/-- The component totals add up to the number of games when every game
classifies. -/
theorem wltSum_length (team : TeamId) :
    ∀ gs : List Game, (∀ g ∈ gs, (gameWLT team g).isSome = true) →
      (wltSum team gs).1 + (wltSum team gs).2.1 + (wltSum team gs).2.2 = gs.length
  | [], _ => rfl
  | g :: gs, hall => by
    rcases Option.isSome_iff_exists.mp (hall g (by simp)) with ⟨wlt, ewlt⟩
    have hone := gameWLT_sum ewlt
    have hrest := wltSum_length team gs (fun g hg => hall g (List.mem_cons_of_mem _ hg))
    simp only [wltSum, ewlt, List.length_cons]
    omega

/-- Every game in the head-to-head query classifies under score consistency. -/
theorem h2h_games_classify {games : List Game} (hc : scoresConsistent games = true)
    (st : Stats) (other : TeamId) :
    ∀ g ∈ h2h_games games st other, (gameWLT st.team g).isSome = true := by
  intro g hg
  rcases List.mem_filter.mp hg with ⟨hmem, hpred⟩
  have hh : g.homeScore.isSome = true := by
    simp only [Bool.and_eq_true] at hpred
    exact hpred.1.2
  exact gameWLT_isSome hh (consistent_away hc hmem hh)

/-- Closed form of head_to_head_record under score consistency. -/
theorem head_to_head_record_eq {games : List Game} (hc : scoresConsistent games = true)
    (st : Stats) (other : TeamId) :
    head_to_head_record games st other = some (wltSum st.team (h2h_games games st other)) := by
  unfold head_to_head_record
  rw [h2hLoop_eq st.team _ _ (h2h_games_classify hc st other)]
  simp

/-- Under score consistency the head-to-head query and the both-scores-present
query coincide. -/
theorem h2h_games_eq_completed {games : List Game} (hc : scoresConsistent games = true)
    (st : Stats) (other : TeamId) :
    h2h_games games st other = completed_h2h games st other := by
  unfold h2h_games completed_h2h
  refine List.filter_congr fun g hg => ?_
  rcases eh : g.homeScore.isSome with _ | _
  · simp [Game.is_completed, eh]
  · have := consistent_away hc hg eh
    simp [Game.is_completed, eh, this]

/-- Closed form of head_to_head_percentage under score consistency: None
exactly when no game was played, else the ties-inclusive percentage. -/
theorem head_to_head_percentage_eq {games : List Game} (hc : scoresConsistent games = true)
    (st : Stats) (other : TeamId) :
    head_to_head_percentage games st other =
      some (if (h2h_games games st other).length = 0 then none
            else some ((((wltSum st.team (h2h_games games st other)).1 : ℚ) +
              1 / 2 * ((wltSum st.team (h2h_games games st other)).2.2 : ℚ)) /
                ((h2h_games games st other).length : ℚ))) := by
  unfold head_to_head_percentage
  rw [head_to_head_record_eq hc st other]
  have hlen := wltSum_length st.team _ (h2h_games_classify hc st other)
  simp only [Option.map_some']
  rw [hlen]

/-- Total per-game clamped differential, defined on completed games (the
defaults are never read there): the signed margin from the perspective of the
team, clamped to the interval from -7 to 7 BEFORE any summation. -/
def clampedDiff (team : TeamId) (g : Game) : Int :=
  if g.homeTeam == team then min 7 (max (-7) (g.homeScore.getD 0 - g.awayScore.getD 0))
  else min 7 (max (-7) (g.awayScore.getD 0 - g.homeScore.getD 0))

/-- On a game with both scores present the Option-valued per-game differential
is the total clamped one. -/
theorem gameDiffCapped_eq {g : Game} (hh : g.homeScore.isSome = true)
    (ha : g.awayScore.isSome = true) (team : TeamId) :
    gameDiffCapped team g = some (clampedDiff team g) := by
  rcases Option.isSome_iff_exists.mp hh with ⟨h, eh⟩
  rcases Option.isSome_iff_exists.mp ha with ⟨a, ea⟩
  simp only [gameDiffCapped, clampedDiff, eh, ea, Option.getD_some]
  split <;> rfl

/-- The per-game clamped differential lies between -7 and 7. -/
theorem clampedDiff_bounds (team : TeamId) (g : Game) :
    -7 ≤ clampedDiff team g ∧ clampedDiff team g ≤ 7 := by
  unfold clampedDiff
  split <;> omega

/-- What the capped-differential loop computes when every game classifies. -/
theorem rdcLoop_eq (team : TeamId) :
    ∀ (gs : List Game) (acc : Int),
      (∀ g ∈ gs, gameDiffCapped team g = some (clampedDiff team g)) →
      rdcLoop team gs acc = some (acc + (gs.map (clampedDiff team)).sum)
  | [], acc, _ => by simp [rdcLoop]
  | g :: gs, acc, hall => by
    simp only [rdcLoop, hall g (by simp)]
    rw [rdcLoop_eq team gs _ (fun g hg => hall g (List.mem_cons_of_mem _ hg))]
    simp only [List.map_cons, List.sum_cons, Option.some.injEq]
    ring

/-- Closed form of run_differential_capped under score consistency: the sum of
per-game clamped differentials over the games of the team in the season. -/
theorem run_differential_capped_eq {games : List Game} (hc : scoresConsistent games = true)
    (st : Stats) :
    run_differential_capped games st =
      some ((((games_played games st.team).filter (fun g => g.season == st.season)).map
        (clampedDiff st.team)).sum) := by
  unfold run_differential_capped
  rw [rdcLoop_eq]
  · simp
  · intro g hg
    have hmem : g ∈ games_played games st.team := (List.mem_filter.mp hg).1
    rcases List.mem_filter.mp hmem with ⟨hmemg, hpred⟩
    have hh : g.homeScore.isSome = true := by
      simp only [games_played_filter, Bool.and_eq_true] at hpred
      exact hpred.2
    exact gameDiffCapped_eq hh (consistent_away hc hmemg hh) st.team

/-- A sum of per-game clamped differentials is bounded by 7 per game on each
side. -/
theorem clampedDiff_sum_bounds (team : TeamId) :
    ∀ gs : List Game,
      -7 * (gs.length : Int) ≤ (gs.map (clampedDiff team)).sum ∧
        (gs.map (clampedDiff team)).sum ≤ 7 * (gs.length : Int)
  | [] => by simp
  | g :: gs => by
    have hb := clampedDiff_bounds team g
    have ih := clampedDiff_sum_bounds team gs
    simp only [List.map_cons, List.sum_cons, List.length_cons]
    push_cast
    constructor <;> linarith [ih.1, ih.2, hb.1, hb.2]

/-! Section: Claim C4 -/

/-- Claim C4: for every team and season, the capped run differential equals
the sum over the completed games of the team in that season of each individual
game signed differential clamped to the interval from -7 to 7 before summing,
and consequently it lies between -7 times and +7 times the number of such
games.  Stated under score consistency, where the home-score-only filter of
the source selects exactly the completed games of the team. -/
theorem C4_run_differential_capped_per_game (games : List Game) (st : Stats)
    (hc : scoresConsistent games = true) :
    ∃ v : Int,
      run_differential_capped games st = some v ∧
      v = (((games_played games st.team).filter (fun g => g.season == st.season)).map
        (clampedDiff st.team)).sum ∧
      -7 * (((games_played games st.team).filter
        (fun g => g.season == st.season)).length : Int) ≤ v ∧
      v ≤ 7 * (((games_played games st.team).filter
        (fun g => g.season == st.season)).length : Int) :=
  ⟨_, run_differential_capped_eq hc st, rfl,
    (clampedDiff_sum_bounds st.team _).1, (clampedDiff_sum_bounds st.team _).2⟩

/-- Season game list of the C4 witness: a single 20 to 0 home win. -/
def gamesW4 : List Game := [⟨0, 1, 2, some 20, some 0, none⟩]

/-- Stats row of the C4 witness. -/
def stW4 : Stats := ⟨10, 1, 0, 0, 0, 0, 0, 0, 0, 0, 0, "", ""⟩

/-- Witness for C4: on a single 20 to 0 win the capped differential is exactly
7, within the per-game bounds. -/
theorem C4_witness :
    scoresConsistent gamesW4 = true ∧ run_differential_capped gamesW4 stW4 = some 7 := by
  refine ⟨by decide, ?_⟩
  rcases C4_run_differential_capped_per_game gamesW4 stW4 (by decide) with ⟨v, hv, hsum, -, -⟩
  rw [hv, hsum]
  decide

/-! Section: Claim C6 -/

/-- Failing input of C6: a game with a recorded home score and a null away
score. -/
def gameHalf : Game := ⟨0, 1, 2, some 5, none, none⟩

/-- Stats row of team 1 in season 0 used by the C6 exhibit. -/
def stC6 : Stats := ⟨11, 1, 0, 0, 0, 0, 0, 0, 0, 0, 0, "", ""⟩

/-- Claim C6 (code bug exhibit): the claim requires a game with a null score
on EITHER side to be excluded from every aggregation, and Game.is_completed
agrees, but Team.games_played filters only on the home score: the half-scored
game is not completed, yet it passes the games-played filter, is counted by
Stats.games_played, and makes update_team_stats and run_differential_capped
raise a TypeError (modelled as `none`).  The services path excludes it, as the
claim demands. -/
theorem C6_half_scored_game_included :
    Game.is_completed gameHalf = false ∧
    games_played_filter 1 gameHalf = true ∧
    stats_games_played [gameHalf] 1 0 = 1 ∧
    update_team_stats [gameHalf] stC6 = none ∧
    run_differential_capped [gameHalf] stC6 = none ∧
    (calculate_team_stats [gameHalf] 1 none).games_played = 0 := by
  refine ⟨rfl, rfl, rfl, ?_, rfl, rfl⟩
  decide

/-! Section: Claim C5 -/

/-- The per-game update increments are defined when both scores are present. -/
theorem updateStep_isSome {team : TeamId} {g : Game} (hh : g.homeScore.isSome = true)
    (ha : g.awayScore.isSome = true) : (updateStep team g).isSome = true := by
  rcases Option.isSome_iff_exists.mp hh with ⟨h, eh⟩
  rcases Option.isSome_iff_exists.mp ha with ⟨a, ea⟩
  simp only [updateStep, eh, ea]
  split
  · split <;> rfl
  · split <;> split <;> rfl

/-- The update loop is defined when every game increments. -/
theorem updateLoop_isSome (team : TeamId) :
    ∀ (gs : List Game) (acc : Nat × Nat × Nat × Int × Int),
      (∀ g ∈ gs, (updateStep team g).isSome = true) →
      ∃ r, updateLoop team gs acc = some r
  | [], acc, _ => ⟨acc, rfl⟩
  | g :: gs, (w, l, t, s, a), hall => by
    rcases Option.isSome_iff_exists.mp (hall g (by simp)) with ⟨d, ed⟩
    rcases d with ⟨dw, dl, dt, ds, da⟩
    simp only [updateLoop, ed]
    exact updateLoop_isSome team gs _ (fun g hg => hall g (List.mem_cons_of_mem _ hg))

/-- Every game selected by update_team_stats has a non-null home score. -/
theorem update_games_home_some {games : List Game} {team : TeamId} {season : Nat} {g : Game}
    (hg : g ∈ update_games games team season) : g ∈ games ∧ g.homeScore.isSome = true := by
  unfold update_games at hg
  rcases List.mem_append.mp hg with hg | hg <;>
    rcases List.mem_filter.mp hg with ⟨hmem, hpred⟩ <;>
      simp only [Bool.and_eq_true] at hpred <;> exact ⟨hmem, hpred.2⟩

/-- Tie game used by the C5 counterexample. -/
def gameC5 : Game := ⟨1, 1, 2, some 3, some 3, none⟩

/-- Counterexample to claim C5: after a single 3 to 3 tie the team has one
game played and one tie, so the claimed formula `(wins + 0.5 * ties) /
games_played` gives one half, but the source computes `wins / games_played`,
which is 0. -/
theorem C5_counterexample :
    (calculate_team_stats [gameC5] 1 (some 1)).games_played = 1 ∧
    (calculate_team_stats [gameC5] 1 (some 1)).ties = 1 ∧
    (calculate_team_stats [gameC5] 1 (some 1)).percentage ≠
      (((calculate_team_stats [gameC5] 1 (some 1)).wins : ℚ) +
        1 / 2 * ((calculate_team_stats [gameC5] 1 (some 1)).ties : ℚ)) /
        ((calculate_team_stats [gameC5] 1 (some 1)).games_played : ℚ) := by
  refine ⟨rfl, rfl, ?_⟩
  norm_num [calculate_team_stats, service_games, serviceStep, gameC5]

/-- Claim C5 as amended: in both implementations the computed winning
percentage equals `wins / games_played` when at least one game was played
(ties contribute nothing to the numerator), and 0 when no game was played;
the stored-stats path divides by the Stats.games_played count. -/
theorem C5_amended_percentage (games : List Game) (team : TeamId) (season : Option Nat)
    (st : Stats) (hc : scoresConsistent games = true) :
    ((calculate_team_stats games team season).percentage =
      if (calculate_team_stats games team season).games_played > 0
      then ((calculate_team_stats games team season).wins : ℚ) /
        ((calculate_team_stats games team season).games_played : ℚ)
      else 0) ∧
    (∃ st2, update_team_stats games st = some st2 ∧
      st2.percentage =
        if stats_games_played games st.team st.season > 0
        then (st2.wins : ℚ) / (stats_games_played games st.team st.season : ℚ)
        else 0) := by
  constructor
  · rfl
  · have hall : ∀ g ∈ update_games games st.team st.season, (updateStep st.team g).isSome = true := by
      intro g hg
      rcases update_games_home_some hg with ⟨hmem, hh⟩
      exact updateStep_isSome hh (consistent_away hc hmem hh)
    rcases updateLoop_isSome st.team (update_games games st.team st.season) (0, 0, 0, 0, 0) hall
      with ⟨r, hr⟩
    refine ⟨_, by rw [update_team_stats, hr]; rfl, ?_⟩
    rfl

/-- Game list of the C5 witness: one win and one tie for team 1. -/
def gamesW5 : List Game := [⟨1, 1, 2, some 4, some 2, none⟩, ⟨1, 2, 1, some 3, some 3, none⟩]

/-- Stats row of the C5 witness. -/
def stW5 : Stats := ⟨12, 1, 1, 0, 0, 0, 0, 0, 0, 0, 0, "", ""⟩

/-- Witness for the amended C5 at a concrete season. -/
theorem C5_amended_witness :
    ((calculate_team_stats gamesW5 1 (some 1)).percentage =
      if (calculate_team_stats gamesW5 1 (some 1)).games_played > 0
      then ((calculate_team_stats gamesW5 1 (some 1)).wins : ℚ) /
        ((calculate_team_stats gamesW5 1 (some 1)).games_played : ℚ)
      else 0) ∧
    (∃ st2, update_team_stats gamesW5 stW5 = some st2 ∧
      st2.percentage =
        if stats_games_played gamesW5 stW5.team stW5.season > 0
        then (st2.wins : ℚ) / (stats_games_played gamesW5 stW5.team stW5.season : ℚ)
        else 0) :=
  C5_amended_percentage gamesW5 1 (some 1) stW5 (by decide)

/-! Section: Claim C3 -/

/-- Skip step of the dominant-winner inner loop. -/
theorem beat_all_step_skip {games : List Game} {t o : Stats} {rest : List Stats}
    (hid : t.id = o.id) :
    beat_all_others games t (o :: rest) = beat_all_others games t rest := by
  rw [beat_all_others, if_pos (by simp [hid])]

/-- Undefined-percentage step of the dominant-winner inner loop. -/
theorem beat_all_step_none {games : List Game} {t o : Stats} {rest : List Stats}
    (hid : ¬t.id = o.id) (hpq : head_to_head_percentage games t o.team = some none) :
    beat_all_others games t (o :: rest) = some false := by
  rw [beat_all_others, if_neg (by simp [hid]), hpq]

/-- Defined-percentage step of the dominant-winner inner loop. -/
theorem beat_all_step_some {games : List Game} {t o : Stats} {rest : List Stats}
    (hid : ¬t.id = o.id) {q : ℚ}
    (hpq : head_to_head_percentage games t o.team = some (some q)) :
    beat_all_others games t (o :: rest) =
      if q ≤ 1 / 2 then some false else beat_all_others games t rest := by
  rw [beat_all_others, if_neg (by simp [hid]), hpq]

/-- Skip step of the dominated-loser inner loop. -/
theorem lost_all_step_skip {games : List Game} {t o : Stats} {rest : List Stats}
    (hid : t.id = o.id) :
    lost_to_all_others games t (o :: rest) = lost_to_all_others games t rest := by
  rw [lost_to_all_others, if_pos (by simp [hid])]

/-- Undefined-percentage step of the dominated-loser inner loop. -/
theorem lost_all_step_none {games : List Game} {t o : Stats} {rest : List Stats}
    (hid : ¬t.id = o.id) (hpq : head_to_head_percentage games t o.team = some none) :
    lost_to_all_others games t (o :: rest) = some false := by
  rw [lost_to_all_others, if_neg (by simp [hid]), hpq]

/-- Defined-percentage step of the dominated-loser inner loop. -/
theorem lost_all_step_some {games : List Game} {t o : Stats} {rest : List Stats}
    (hid : ¬t.id = o.id) {q : ℚ}
    (hpq : head_to_head_percentage games t o.team = some (some q)) :
    lost_to_all_others games t (o :: rest) =
      if q ≥ 1 / 2 then some false else lost_to_all_others games t rest := by
  rw [lost_to_all_others, if_neg (by simp [hid]), hpq]

/-- Characterization of the dominant-winner inner loop under score
consistency: it never raises, and it answers True exactly when every other
member is either the checked team itself or has a DEFINED head-to-head
percentage strictly above one half; an undefined percentage yields False. -/
theorem beat_all_others_eq {games : List Game} (hc : scoresConsistent games = true)
    (t : Stats) :
    ∀ l : List Stats,
      beat_all_others games t l =
        some (l.all fun o => o.id == t.id || h2hDefGT games t o)
  | [] => rfl
  | o :: rest => by
    by_cases hid : t.id = o.id
    · rw [beat_all_step_skip hid, beat_all_others_eq hc t rest, List.all_cons]
      simp [hid]
    · have hp := head_to_head_percentage_eq hc t o.team
      by_cases hlen : (h2h_games games t o.team).length = 0
      · have hpn : head_to_head_percentage games t o.team = some none := by
          rw [hp, if_pos hlen]
        have hGT : h2hDefGT games t o = false := by unfold h2hDefGT; rw [hpn]
        rw [beat_all_step_none hid hpn, List.all_cons, hGT]
        simp [Ne.symm hid]
      · have hpq : head_to_head_percentage games t o.team =
            some (some ((((wltSum t.team (h2h_games games t o.team)).1 : ℚ) +
              1 / 2 * ((wltSum t.team (h2h_games games t o.team)).2.2 : ℚ)) /
                ((h2h_games games t o.team).length : ℚ))) := by
          rw [hp, if_neg hlen]
        have hGT : h2hDefGT games t o =
            decide ((((wltSum t.team (h2h_games games t o.team)).1 : ℚ) +
              1 / 2 * ((wltSum t.team (h2h_games games t o.team)).2.2 : ℚ)) /
                ((h2h_games games t o.team).length : ℚ) > 1 / 2) := by
          unfold h2hDefGT; rw [hpq]
        rw [beat_all_step_some hid hpq, List.all_cons, hGT]
        by_cases hq : (((wltSum t.team (h2h_games games t o.team)).1 : ℚ) +
            1 / 2 * ((wltSum t.team (h2h_games games t o.team)).2.2 : ℚ)) /
              ((h2h_games games t o.team).length : ℚ) ≤ 1 / 2
        · rw [if_pos hq, decide_eq_false (not_lt.mpr hq)]
          simp [Ne.symm hid]
        · rw [if_neg hq, decide_eq_true (lt_of_not_le hq), beat_all_others_eq hc t rest]
          simp

/-- Characterization of the dominated-loser inner loop under score
consistency, mirror image of the dominant-winner one. -/
theorem lost_to_all_others_eq {games : List Game} (hc : scoresConsistent games = true)
    (t : Stats) :
    ∀ l : List Stats,
      lost_to_all_others games t l =
        some (l.all fun o => o.id == t.id || h2hDefLT games t o)
  | [] => rfl
  | o :: rest => by
    by_cases hid : t.id = o.id
    · rw [lost_all_step_skip hid, lost_to_all_others_eq hc t rest, List.all_cons]
      simp [hid]
    · have hp := head_to_head_percentage_eq hc t o.team
      by_cases hlen : (h2h_games games t o.team).length = 0
      · have hpn : head_to_head_percentage games t o.team = some none := by
          rw [hp, if_pos hlen]
        have hLT : h2hDefLT games t o = false := by unfold h2hDefLT; rw [hpn]
        rw [lost_all_step_none hid hpn, List.all_cons, hLT]
        simp [Ne.symm hid]
      · have hpq : head_to_head_percentage games t o.team =
            some (some ((((wltSum t.team (h2h_games games t o.team)).1 : ℚ) +
              1 / 2 * ((wltSum t.team (h2h_games games t o.team)).2.2 : ℚ)) /
                ((h2h_games games t o.team).length : ℚ))) := by
          rw [hp, if_neg hlen]
        have hLT : h2hDefLT games t o =
            decide ((((wltSum t.team (h2h_games games t o.team)).1 : ℚ) +
              1 / 2 * ((wltSum t.team (h2h_games games t o.team)).2.2 : ℚ)) /
                ((h2h_games games t o.team).length : ℚ) < 1 / 2) := by
          unfold h2hDefLT; rw [hpq]
        rw [lost_all_step_some hid hpq, List.all_cons, hLT]
        by_cases hq : (((wltSum t.team (h2h_games games t o.team)).1 : ℚ) +
            1 / 2 * ((wltSum t.team (h2h_games games t o.team)).2.2 : ℚ)) /
              ((h2h_games games t o.team).length : ℚ) ≥ 1 / 2
        · rw [if_pos hq, decide_eq_false (not_lt.mpr hq)]
          simp [Ne.symm hid]
        · rw [if_neg hq, decide_eq_true (lt_of_not_le hq), lost_to_all_others_eq hc t rest]
          simp

/-- Claim C3: the head-to-head percentage is None exactly when zero completed
games exist between the two teams in the season, and in the dominant-winner
and dominated-loser scans an undefined percentage makes the strict
comparisons fail (the member test reduces to a defined-and-strict test that
is False on None), so an undefined comparison never acts as a winner or
loser signal. -/
theorem C3_h2h_undefined_propagates (games : List Game) (st o : Stats) (l : List Stats)
    (hc : scoresConsistent games = true) :
    (head_to_head_percentage games st o.team = some none ↔
      completed_h2h games st o.team = []) ∧
    (head_to_head_percentage games st o.team = some none →
      h2hDefGT games st o = false ∧ h2hDefLT games st o = false) ∧
    beat_all_others games st l =
      some (l.all fun x => x.id == st.id || h2hDefGT games st x) ∧
    lost_to_all_others games st l =
      some (l.all fun x => x.id == st.id || h2hDefLT games st x) := by
  have hp := head_to_head_percentage_eq hc st o.team
  refine ⟨?_, ?_, beat_all_others_eq hc st l, lost_to_all_others_eq hc st l⟩
  · rw [hp, ← h2h_games_eq_completed hc st o.team]
    by_cases hlen : (h2h_games games st o.team).length = 0
    · simp [hlen, List.length_eq_zero.mp hlen]
    · simp only [if_neg hlen, Option.some.injEq]
      constructor
      · intro hcontra
        exact absurd hcontra (by simp)
      · intro hnil
        exact absurd (by rw [hnil]; rfl : (h2h_games games st o.team).length = 0) hlen
  · intro hnone
    unfold h2hDefGT h2hDefLT
    rw [hnone]
    exact ⟨rfl, rfl⟩

/-- Game list of the C3 witness: one game between teams 1 and 2, none against
team 3. -/
def gamesW3 : List Game := [⟨1, 1, 2, some 6, some 2, none⟩]

/-- Stats rows of the C3 witness. -/
def stW3a : Stats := ⟨21, 1, 1, 0, 0, 0, 0, 0, 0, 0, 0, "", ""⟩

/-- Second stats row of the C3 witness, a team with no games against the
first. -/
def stW3b : Stats := ⟨22, 3, 1, 0, 0, 0, 0, 0, 0, 0, 0, "", ""⟩

/-- Witness for C3 at a concrete season. -/
theorem C3_witness :
    (head_to_head_percentage gamesW3 stW3a stW3b.team = some none ↔
      completed_h2h gamesW3 stW3a stW3b.team = []) ∧
    (head_to_head_percentage gamesW3 stW3a stW3b.team = some none →
      h2hDefGT gamesW3 stW3a stW3b = false ∧ h2hDefLT gamesW3 stW3a stW3b = false) ∧
    beat_all_others gamesW3 stW3a [stW3b] =
      some ([stW3b].all fun x => x.id == stW3a.id || h2hDefGT gamesW3 stW3a x) ∧
    lost_to_all_others gamesW3 stW3a [stW3b] =
      some ([stW3b].all fun x => x.id == stW3a.id || h2hDefLT gamesW3 stW3a x) :=
  C3_h2h_undefined_propagates gamesW3 stW3a stW3b [stW3b] (by decide)

/-! Section: Claim C10 -/

/-- The two head-to-head queries of a pair of rows of one season select the
same games. -/
theorem h2h_games_symm (games : List Game) (st1 st2 : Stats)
    (hseason : st1.season = st2.season) :
    h2h_games games st1 st2.team = h2h_games games st2 st1.team := by
  unfold h2h_games
  refine List.filter_congr fun g _ => ?_
  rw [hseason, Bool.or_comm]

/-- Membership in the head-to-head query yields the between-teams condition. -/
theorem h2h_games_between {games : List Game} {st : Stats} {other : TeamId} :
    ∀ g ∈ h2h_games games st other,
      ((g.homeTeam == st.team && g.awayTeam == other) ||
        (g.homeTeam == other && g.awayTeam == st.team)) = true := by
  intro g hg
  rcases List.mem_filter.mp hg with ⟨-, hpred⟩
  simp only [Bool.and_eq_true] at hpred
  exact hpred.2

/-- Swapping perspective on a classified game between two distinct teams
swaps wins and losses and keeps ties. -/
theorem gameWLT_swap {A B : TeamId} (hne : A ≠ B) {g : Game}
    (hbet : ((g.homeTeam == A && g.awayTeam == B) ||
      (g.homeTeam == B && g.awayTeam == A)) = true)
    {wlt : Nat × Nat × Nat} (h : gameWLT A g = some wlt) :
    gameWLT B g = some (wlt.2.1, wlt.1, wlt.2.2) := by
  simp only [Bool.or_eq_true, Bool.and_eq_true, beq_iff_eq] at hbet
  unfold gameWLT at h ⊢
  rcases eh : g.homeScore with _ | hs <;> rcases ea : g.awayScore with _ | as <;>
      (try rw [eh] at h) <;> (try rw [ea] at h)
  · simp only [Option.some.injEq] at h; subst h; rfl
  · simp at h
  · simp at h
  · rcases hbet with ⟨hh, ha⟩ | ⟨hh, ha⟩
    · have e1 : (g.homeTeam == A) = true := by rw [hh]; exact beq_self_eq_true A
      have e2 : (g.awayTeam == A) = false := by
        rw [ha]; exact beq_eq_false_iff_ne.mpr (Ne.symm hne)
      have e3 : (g.homeTeam == B) = false := by
        rw [hh]; exact beq_eq_false_iff_ne.mpr hne
      have e4 : (g.awayTeam == B) = true := by rw [ha]; exact beq_self_eq_true B
      rw [e1, e2] at h
      rw [e3, e4]
      simp only [Bool.true_and, Bool.false_and, Bool.or_false, Bool.false_or] at h ⊢
      by_cases h1 : hs = as
      · subst h1
        rw [if_pos (by simp)] at h ⊢
        simp only [Option.some.injEq] at h; subst h; rfl
      · rw [if_neg (by simp [h1])] at h ⊢
        by_cases h2 : hs > as
        · rw [if_pos (by simp [h2])] at h
          rw [if_neg (by simp [not_lt.mpr h2.le])]
          simp only [Option.some.injEq] at h; subst h; rfl
        · have h3 : as > hs := lt_of_le_of_ne (not_lt.mp h2) h1
          rw [if_neg (by simp [h2])] at h
          rw [if_pos (by simp [h3])]
          simp only [Option.some.injEq] at h; subst h; rfl
    · have e1 : (g.homeTeam == A) = false := by
        rw [hh]; exact beq_eq_false_iff_ne.mpr (Ne.symm hne)
      have e2 : (g.awayTeam == A) = true := by rw [ha]; exact beq_self_eq_true A
      have e3 : (g.homeTeam == B) = true := by rw [hh]; exact beq_self_eq_true B
      have e4 : (g.awayTeam == B) = false := by
        rw [ha]; exact beq_eq_false_iff_ne.mpr hne
      rw [e1, e2] at h
      rw [e3, e4]
      simp only [Bool.true_and, Bool.false_and, Bool.or_false, Bool.false_or] at h ⊢
      by_cases h1 : hs = as
      · subst h1
        rw [if_pos (by simp)] at h ⊢
        simp only [Option.some.injEq] at h; subst h; rfl
      · rw [if_neg (by simp [h1])] at h ⊢
        by_cases h2 : as > hs
        · rw [if_pos (by simp [h2])] at h
          rw [if_neg (by simp [not_lt.mpr h2.le])]
          simp only [Option.some.injEq] at h; subst h; rfl
        · have h3 : hs > as := lt_of_le_of_ne (not_lt.mp h2) (fun e => h1 e.symm)
          rw [if_neg (by simp [h2])] at h
          rw [if_pos (by simp [h3])]
          simp only [Option.some.injEq] at h; subst h; rfl

/-- Componentwise totals from the opposite perspective over a common list of
games between two distinct teams: wins and losses swap, ties agree. -/
theorem wltSum_swap {A B : TeamId} (hne : A ≠ B) :
    ∀ gs : List Game,
      (∀ g ∈ gs, ((g.homeTeam == A && g.awayTeam == B) ||
        (g.homeTeam == B && g.awayTeam == A)) = true) →
      (∀ g ∈ gs, (gameWLT A g).isSome = true) →
      wltSum B gs = ((wltSum A gs).2.1, (wltSum A gs).1, (wltSum A gs).2.2)
  | [], _, _ => rfl
  | g :: gs, hbet, hsome => by
    rcases Option.isSome_iff_exists.mp (hsome g (by simp)) with ⟨wlt, ewlt⟩
    have eswap := gameWLT_swap hne (hbet g (by simp)) ewlt
    have ih := wltSum_swap hne gs (fun g hg => hbet g (List.mem_cons_of_mem _ hg))
      (fun g hg => hsome g (List.mem_cons_of_mem _ hg))
    simp only [wltSum, ewlt, eswap, ih]

/-- Claim C10: for two rows of one season whose teams met at least once, the
ties-inclusive head-to-head percentages are defined and complementary, so the
two-way decisiveness test (the two percentages differ) is equivalent to the
first percentage not being exactly one half. -/
theorem C10_h2h_complementary (games : List Game) (st1 st2 : Stats)
    (hc : scoresConsistent games = true) (hseason : st1.season = st2.season)
    (hne : st1.team ≠ st2.team)
    (hplayed : completed_h2h games st1 st2.team ≠ []) :
    ∃ q1 q2 : ℚ,
      head_to_head_percentage games st1 st2.team = some (some q1) ∧
      head_to_head_percentage games st2 st1.team = some (some q2) ∧
      q1 + q2 = 1 ∧ (q1 ≠ q2 ↔ q1 ≠ 1 / 2) := by
  have hlenne : (h2h_games games st1 st2.team).length ≠ 0 := by
    rw [h2h_games_eq_completed hc st1 st2.team]
    simpa [List.length_eq_zero] using hplayed
  have hclass := h2h_games_classify hc st1 st2.team
  have hbet : ∀ g ∈ h2h_games games st1 st2.team,
      ((g.homeTeam == st1.team && g.awayTeam == st2.team) ||
        (g.homeTeam == st2.team && g.awayTeam == st1.team)) = true :=
    fun g hg => h2h_games_between g hg
  have hswap := wltSum_swap hne (h2h_games games st1 st2.team) hbet hclass
  have hsm := h2h_games_symm games st1 st2 hseason
  have hlen := wltSum_length st1.team (h2h_games games st1 st2.team) hclass
  have hp1 := head_to_head_percentage_eq hc st1 st2.team
  have hp2 := head_to_head_percentage_eq hc st2 st1.team
  rw [if_neg hlenne] at hp1
  rw [← hsm, hswap] at hp2
  rw [if_neg hlenne] at hp2
  refine ⟨_, _, hp1, hp2, ?_, ?_⟩
  · have hn : ((h2h_games games st1 st2.team).length : ℚ) ≠ 0 :=
      Nat.cast_ne_zero.mpr hlenne
    have hcast : ((wltSum st1.team (h2h_games games st1 st2.team)).1 : ℚ) +
        ((wltSum st1.team (h2h_games games st1 st2.team)).2.1 : ℚ) +
        ((wltSum st1.team (h2h_games games st1 st2.team)).2.2 : ℚ) =
        ((h2h_games games st1 st2.team).length : ℚ) := by
      exact_mod_cast hlen
    field_simp
    linarith [hcast]
  · have hn : ((h2h_games games st1 st2.team).length : ℚ) ≠ 0 :=
      Nat.cast_ne_zero.mpr hlenne
    have hsum : (((wltSum st1.team (h2h_games games st1 st2.team)).1 : ℚ) +
        1 / 2 * ((wltSum st1.team (h2h_games games st1 st2.team)).2.2 : ℚ)) /
          ((h2h_games games st1 st2.team).length : ℚ) +
        (((wltSum st1.team (h2h_games games st1 st2.team)).2.1 : ℚ) +
        1 / 2 * ((wltSum st1.team (h2h_games games st1 st2.team)).2.2 : ℚ)) /
          ((h2h_games games st1 st2.team).length : ℚ) = 1 := by
      have hcast : ((wltSum st1.team (h2h_games games st1 st2.team)).1 : ℚ) +
          ((wltSum st1.team (h2h_games games st1 st2.team)).2.1 : ℚ) +
          ((wltSum st1.team (h2h_games games st1 st2.team)).2.2 : ℚ) =
          ((h2h_games games st1 st2.team).length : ℚ) := by
        exact_mod_cast hlen
      field_simp
      linarith [hcast]
    constructor
    · intro hneq heq
      exact hneq (by linarith [hsum])
    · intro hhalf heq
      exact hhalf (by linarith [hsum])

/-- Game list of the C10 witness: two games between teams 1 and 2 in season
1, one win each way plus nothing else. -/
def gamesW10 : List Game :=
  [⟨1, 1, 2, some 5, some 3, none⟩, ⟨1, 2, 1, some 9, some 4, none⟩]

/-- First stats row of the C10 witness. -/
def stW10a : Stats := ⟨31, 1, 1, 0, 0, 0, 0, 0, 0, 0, 0, "", ""⟩

/-- Second stats row of the C10 witness. -/
def stW10b : Stats := ⟨32, 2, 1, 0, 0, 0, 0, 0, 0, 0, 0, "", ""⟩

/-- Witness for C10 at a concrete pair of rows. -/
theorem C10_witness :
    ∃ q1 q2 : ℚ,
      head_to_head_percentage gamesW10 stW10a stW10b.team = some (some q1) ∧
      head_to_head_percentage gamesW10 stW10b stW10a.team = some (some q2) ∧
      q1 + q2 = 1 ∧ (q1 ≠ q2 ↔ q1 ≠ 1 / 2) :=
  C10_h2h_complementary gamesW10 stW10a stW10b (by decide) rfl (by decide) (by decide)

/-! Section: Claim C7 -/

/-- Claim C7: the record set handed to the tie-break resolver is the cleared
input sorted by the primary key, wins descending, then points descending,
then percentage descending; the third conjunct spells the key relation out. -/
theorem C7_seed_ordering (statsList : List Stats) :
    (spo_seed statsList).Sorted primaryRel ∧
    (spo_seed statsList).Perm (statsList.map clearTB) ∧
    (∀ s t : Stats, primaryRel s t ↔
      (t.wins < s.wins ∨ (s.wins = t.wins ∧ (t.points < s.points ∨
        (s.points = t.points ∧ t.percentage ≤ s.percentage))))) := by
  refine ⟨List.sorted_insertionSort primaryRel _, List.perm_insertionSort primaryRel _, ?_⟩
  intro s t
  unfold primaryRel lex3 pkey
  simp only [neg_lt_neg_iff, neg_inj, neg_le_neg_iff, Nat.cast_lt, Nat.cast_inj]

/-! Section: Claim C1 -/

/-- Claim C1: the two-way resolver applies its rules in strict order and the
first decisive rule fixes both the order and the stamps on both records:
defined, differing head-to-head percentages put the higher first with reason
Head-to-head record and one star; else differing capped differentials decide
with two stars; else differing runs against decide (lower first) with three
stars; else differing runs scored decide (higher first) with four stars; else
both records are stamped Requires manual resolution with the dagger and stay
in input order. -/
theorem C1_two_way_rule_chain (games : List Game) (t1 t2 : Stats)
    (hc : scoresConsistent games = true) :
    (∀ q1 q2 : ℚ, head_to_head_percentage games t1 t2.team = some (some q1) →
      head_to_head_percentage games t2 t1.team = some (some q2) → q1 ≠ q2 →
      break_two_way_tie games t1 t2 =
        some (if q1 > q2
          then [stampTB t1 "Head-to-head record" "*", stampTB t2 "Head-to-head record" "*"]
          else [stampTB t2 "Head-to-head record" "*", stampTB t1 "Head-to-head record" "*"])) ∧
    (head_to_head_percentage games t1 t2.team = head_to_head_percentage games t2 t1.team →
      ∀ d1 d2 : Int, run_differential_capped games t1 = some d1 →
        run_differential_capped games t2 = some d2 → d1 ≠ d2 →
        break_two_way_tie games t1 t2 =
          some (if d1 > d2
            then [stampTB t1 "Run differential" "**", stampTB t2 "Run differential" "**"]
            else [stampTB t2 "Run differential" "**", stampTB t1 "Run differential" "**"])) ∧
    (head_to_head_percentage games t1 t2.team = head_to_head_percentage games t2 t1.team →
      run_differential_capped games t1 = run_differential_capped games t2 →
      t1.runs_against ≠ t2.runs_against →
      break_two_way_tie games t1 t2 =
        some (if t1.runs_against < t2.runs_against
          then [stampTB t1 "Fewest runs against" "***", stampTB t2 "Fewest runs against" "***"]
          else [stampTB t2 "Fewest runs against" "***",
            stampTB t1 "Fewest runs against" "***"])) ∧
    (head_to_head_percentage games t1 t2.team = head_to_head_percentage games t2 t1.team →
      run_differential_capped games t1 = run_differential_capped games t2 →
      t1.runs_against = t2.runs_against → t1.runs_scored ≠ t2.runs_scored →
      break_two_way_tie games t1 t2 =
        some (if t1.runs_scored > t2.runs_scored
          then [stampTB t1 "Most runs scored" "****", stampTB t2 "Most runs scored" "****"]
          else [stampTB t2 "Most runs scored" "****", stampTB t1 "Most runs scored" "****"])) ∧
    (head_to_head_percentage games t1 t2.team = head_to_head_percentage games t2 t1.team →
      run_differential_capped games t1 = run_differential_capped games t2 →
      t1.runs_against = t2.runs_against → t1.runs_scored = t2.runs_scored →
      break_two_way_tie games t1 t2 =
        some [stampTB t1 "Requires manual resolution" "†",
          stampTB t2 "Requires manual resolution" "†"]) := by
  have hp1 := head_to_head_percentage_eq hc t1 t2.team
  have hp2full := head_to_head_percentage_eq hc t2 t1.team
  have hd1 := run_differential_capped_eq hc t1
  have hd2 := run_differential_capped_eq hc t2
  refine ⟨?_, ?_, ?_, ?_, ?_⟩
  · intro q1 q2 hq1 hq2 hq
    simp only [break_two_way_tie, hq1, hq2, Option.isSome_some, Bool.true_and]
    rw [if_pos (by simp [hq])]
    split_ifs <;> rfl
  · intro hpp d1 d2 he1 he2 hd
    rcases Option.isSome_iff_exists.mp (by rw [hp1]; rfl :
      (head_to_head_percentage games t1 t2.team).isSome = true) with ⟨o1, ho1⟩
    simp only [break_two_way_tie, ho1, hpp ▸ ho1, he1, he2]
    rw [if_neg (by simp), if_pos (by simp [hd])]
    split_ifs <;> rfl
  · intro hpp hdd hra
    rcases Option.isSome_iff_exists.mp (by rw [hp1]; rfl :
      (head_to_head_percentage games t1 t2.team).isSome = true) with ⟨o1, ho1⟩
    rcases Option.isSome_iff_exists.mp (by rw [hd1]; rfl :
      (run_differential_capped games t1).isSome = true) with ⟨dv, hdv⟩
    simp only [break_two_way_tie, ho1, hpp ▸ ho1, hdv, hdd ▸ hdv]
    rw [if_neg (by simp), if_neg (by simp), if_pos (by simp [hra])]
    split_ifs <;> rfl
  · intro hpp hdd hra hrs
    rcases Option.isSome_iff_exists.mp (by rw [hp1]; rfl :
      (head_to_head_percentage games t1 t2.team).isSome = true) with ⟨o1, ho1⟩
    rcases Option.isSome_iff_exists.mp (by rw [hd1]; rfl :
      (run_differential_capped games t1).isSome = true) with ⟨dv, hdv⟩
    simp only [break_two_way_tie, ho1, hpp ▸ ho1, hdv, hdd ▸ hdv]
    rw [if_neg (by simp), if_neg (by simp), if_neg (by simp [hra]),
      if_pos (by simp [hrs])]
    split_ifs <;> rfl
  · intro hpp hdd hra hrs
    rcases Option.isSome_iff_exists.mp (by rw [hp1]; rfl :
      (head_to_head_percentage games t1 t2.team).isSome = true) with ⟨o1, ho1⟩
    rcases Option.isSome_iff_exists.mp (by rw [hd1]; rfl :
      (run_differential_capped games t1).isSome = true) with ⟨dv, hdv⟩
    simp only [break_two_way_tie, ho1, hpp ▸ ho1, hdv, hdd ▸ hdv]
    rw [if_neg (by simp), if_neg (by simp), if_neg (by simp [hra]),
      if_neg (by simp [hrs])]

/-! Section: Multi-way machinery -/

/-- Stamping keeps the primary key. -/
@[simp] theorem stampTB_id (s : Stats) (r y : String) : (stampTB s r y).id = s.id := rfl

/-- Stamping keeps the team. -/
@[simp] theorem stampTB_team (s : Stats) (r y : String) : (stampTB s r y).team = s.team := rfl

/-- Stamping keeps the season. -/
@[simp] theorem stampTB_season (s : Stats) (r y : String) :
    (stampTB s r y).season = s.season := rfl

/-- Dominance test of the multi-way scan: a defined head-to-head percentage
strictly above one half against every other member of the group. -/
def dominantB (games : List Game) (t : Stats) (all : List Stats) : Bool :=
  all.all fun o => o.id == t.id || h2hDefGT games t o

/-- Domination test of the multi-way scan: a defined head-to-head percentage
strictly below one half against every other member of the group. -/
def dominatedB (games : List Game) (t : Stats) (all : List Stats) : Bool :=
  all.all fun o => o.id == t.id || h2hDefLT games t o

/-- The dominant-winner scan returns the first group member that beat all the
others, under score consistency. -/
theorem find_dominant_eq {games : List Game} (hc : scoresConsistent games = true)
    (all : List Stats) :
    ∀ l : List Stats,
      find_dominant games all l = some (l.find? fun t => dominantB games t all)
  | [] => rfl
  | t :: rest => by
    cases hall : all.all fun o => o.id == t.id || h2hDefGT games t o <;>
      simp [find_dominant, beat_all_others_eq hc t all, List.find?_cons, dominantB, hall,
        find_dominant_eq hc all rest]

/-- The dominated-loser scan returns the first group member that lost to all
the others, under score consistency. -/
theorem find_dominated_eq {games : List Game} (hc : scoresConsistent games = true)
    (all : List Stats) :
    ∀ l : List Stats,
      find_dominated games all l = some (l.find? fun t => dominatedB games t all)
  | [] => rfl
  | t :: rest => by
    cases hall : all.all fun o => o.id == t.id || h2hDefLT games t o <;>
      simp [find_dominated, lost_to_all_others_eq hc t all, List.find?_cons, dominatedB, hall,
        find_dominated_eq hc all rest]

/-- Filtering on a predicate of the key commutes with taking keys. -/
theorem map_id_filter (p : Nat → Bool) :
    ∀ l : List Stats, (l.filter fun t => p t.id).map Stats.id = (l.map Stats.id).filter p
  | [] => rfl
  | t :: l => by
    cases hp : p t.id <;>
      simp [List.filter_cons, hp, map_id_filter p l]

/-- With distinct keys, dropping one member by key removes exactly it. -/
theorem filter_ne_id_map (teams : List Stats) (d : Stats)
    (hnd : (teams.map Stats.id).Nodup) :
    ((teams.filter fun t => !(t.id == d.id)).map Stats.id) =
      (teams.map Stats.id).erase d.id := by
  rw [map_id_filter (fun i => !(i == d.id)) teams, hnd.erase_eq_filter d.id]
  exact List.filter_congr fun i _ => by simp [bne]

/-- Dropping one present member by key shortens the group by exactly one. -/
theorem filter_ne_id_length (teams : List Stats) (d : Stats)
    (hnd : (teams.map Stats.id).Nodup) (hd : d ∈ teams) :
    (teams.filter fun t => !(t.id == d.id)).length + 1 = teams.length := by
  have h1 : ((teams.filter fun t => !(t.id == d.id)).map Stats.id).length =
      ((teams.map Stats.id).erase d.id).length := by rw [filter_ne_id_map teams d hnd]
  rw [List.length_map] at h1
  rw [h1, List.length_erase_of_mem (List.mem_map_of_mem Stats.id hd), List.length_map]
  have : teams.length ≠ 0 := by
    intro h0
    rw [List.length_eq_zero.mp h0] at hd
    cases hd
  omega

/-- The keys of the group are the dropped key followed by the remaining keys,
up to permutation. -/
theorem filter_ne_id_perm (teams : List Stats) (d : Stats)
    (hnd : (teams.map Stats.id).Nodup) (hd : d ∈ teams) :
    (d.id :: (teams.filter fun t => !(t.id == d.id)).map Stats.id).Perm
      (teams.map Stats.id) := by
  rw [filter_ne_id_map teams d hnd]
  exact (List.perm_cons_erase (List.mem_map_of_mem Stats.id hd)).symm

/-- Value of the capped run differential, total form used for key sorting. -/
def rdcVal (games : List Game) (t : Stats) : Int :=
  (run_differential_capped games t).getD 0

/-- Decoration of the fallback sort never raises under score consistency. -/
theorem mapM_rdc_eq {games : List Game} (hc : scoresConsistent games = true) :
    ∀ teams : List Stats,
      teams.mapM (fun t => (run_differential_capped games t).map (fun d => (t, d))) =
        some (teams.map fun t => (t, rdcVal games t))
  | [] => rfl
  | t :: teams => by
    have hd := run_differential_capped_eq hc t
    have hv : rdcVal games t =
        (((games_played games t.team).filter (fun g => g.season == t.season)).map
          (clampedDiff t.team)).sum := by
      unfold rdcVal
      rw [hd]
      rfl
    simp only [List.mapM_cons, hd, mapM_rdc_eq hc teams, Option.map_some',
      Option.pure_def, Option.bind_some, Option.bind_eq_bind, Option.some_bind]
    rw [← hv, List.map_cons]

/-- Case form of the multi-way resolver under score consistency: first
dominant winner, else first dominated loser, else the stable fallback sort by
capped differential descending, runs against ascending, runs scored
descending, every member stamped. -/
theorem break_multi_way_tie_eq {games : List Game} (hc : scoresConsistent games = true)
    (recurse : List Stats → Option (List Stats)) (teams : List Stats) :
    break_multi_way_tie games recurse teams =
      match teams.find? (fun t => dominantB games t teams) with
      | some d =>
        (if (teams.filter fun t => !(t.id == d.id)).length > 1
          then recurse (teams.filter fun t => !(t.id == d.id))
          else some (teams.filter fun t => !(t.id == d.id))).map
          fun resolved => stampTB d "Beat all tied teams" "†" :: resolved
      | none =>
        match teams.find? (fun t => dominatedB games t teams) with
        | some e =>
          (if (teams.filter fun t => !(t.id == e.id)).length > 1
            then recurse (teams.filter fun t => !(t.id == e.id))
            else some (teams.filter fun t => !(t.id == e.id))).map
            fun resolved => resolved ++ [stampTB e "Lost to all tied teams" "†"]
        | none =>
          some ((List.insertionSort fallbackRel (teams.map fun t => (t, rdcVal games t))).map
            fun p => stampTB p.1 "Multi-team tie resolution" "†") := by
  unfold break_multi_way_tie
  rw [find_dominant_eq hc teams teams, find_dominated_eq hc teams teams, mapM_rdc_eq hc teams]
  cases teams.find? fun t => dominantB games t teams
  · cases teams.find? fun t => dominatedB games t teams
    · rfl
    · rfl
  · rfl

/-- Under score consistency and a common season the two-way chain never
raises and returns the two rows, stamped, in some order. -/
theorem break_two_way_spec {games : List Game} (hc : scoresConsistent games = true)
    {t1 t2 : Stats} (hseason : t1.season = t2.season) :
    ∃ out, break_two_way_tie games t1 t2 = some out ∧
      (out.map Stats.id).Perm [t1.id, t2.id] := by
  have hp1 := head_to_head_percentage_eq hc t1 t2.team
  have hp2 := head_to_head_percentage_eq hc t2 t1.team
  have hsm := h2h_games_symm games t1 t2 hseason
  rw [← hsm] at hp2
  have hd1 := run_differential_capped_eq hc t1
  have hd2 := run_differential_capped_eq hc t2
  by_cases hlen : (h2h_games games t1 t2.team).length = 0
  · have hp1n : head_to_head_percentage games t1 t2.team = some none := by
      rw [hp1, if_pos hlen]
    have hp2n : head_to_head_percentage games t2 t1.team = some none := by
      rw [hp2, if_pos hlen]
    simp only [break_two_way_tie, hp1n, hp2n, hd1, hd2, Option.isSome_none, Bool.false_and,
      Bool.false_eq_true, if_false]
    split_ifs <;> refine ⟨_, rfl, ?_⟩ <;>
      simp only [List.map_cons, List.map_nil, stampTB_id] <;>
      first
        | exact List.Perm.refl _
        | exact List.Perm.swap t1.id t2.id []
  · obtain ⟨q1v, hp1s⟩ : ∃ q, head_to_head_percentage games t1 t2.team = some (some q) :=
      ⟨_, by rw [hp1, if_neg hlen]⟩
    obtain ⟨q2v, hp2s⟩ : ∃ q, head_to_head_percentage games t2 t1.team = some (some q) :=
      ⟨_, by rw [hp2, if_neg hlen]⟩
    by_cases hq : q1v = q2v
    · simp only [break_two_way_tie, hp1s, hp2s, hd1, hd2, Option.isSome_some, Bool.true_and,
        hq, bne_self_eq_false, Bool.false_eq_true, if_false]
      split_ifs <;> refine ⟨_, rfl, ?_⟩ <;>
        simp only [List.map_cons, List.map_nil, stampTB_id] <;>
        first
          | exact List.Perm.refl _
          | exact List.Perm.swap t1.id t2.id []
    · have hbne : (some q1v != some q2v) = true := by simp [hq]
      simp only [break_two_way_tie, hp1s, hp2s, hd1, hd2, Option.isSome_some, Bool.true_and,
        hbne, if_true]
      split_ifs <;> refine ⟨_, rfl, ?_⟩ <;>
        simp only [List.map_cons, List.map_nil, stampTB_id] <;>
        first
          | exact List.Perm.refl _
          | exact List.Perm.swap t1.id t2.id []

/-- Under score consistency, a common season and distinct keys, the resolver
with fuel exceeding the group size returns a result whose keys are a
permutation of the group keys: it terminates without error, and every
recursive call strictly shrinks the group. -/
theorem break_tie_spec {games : List Game} (season : Nat)
    (hc : scoresConsistent games = true) :
    ∀ (fuel : Nat) (teams : List Stats),
      teams.length < fuel →
      (∀ t ∈ teams, t.season = season) →
      (teams.map Stats.id).Nodup →
      ∃ out, break_tie games fuel teams = some out ∧
        (out.map Stats.id).Perm (teams.map Stats.id)
  | 0, teams, hfuel, _, _ => absurd hfuel (by omega)
  | fuel + 1, teams, hfuel, hs, hnd => by
    by_cases hlen : teams.length ≤ 1
    · exact ⟨teams, by rw [break_tie, if_pos hlen], List.Perm.refl _⟩
    · rcases teams with _ | ⟨t1, _ | ⟨t2, _ | ⟨t3, rest⟩⟩⟩
      · simp at hlen
      · simp at hlen
      · rcases break_two_way_spec hc
          (by rw [hs t1 (by simp), hs t2 (by simp)] : t1.season = t2.season) with ⟨out, ho, hp⟩
        refine ⟨out, ?_, hp⟩
        rw [break_tie, if_neg hlen,
          if_pos (show ([t1, t2].length == 2) = true from rfl)]
        exact ho
      · set teams := t1 :: t2 :: t3 :: rest with hteams
        have hb : break_tie games (fuel + 1) teams =
            break_multi_way_tie games (break_tie games fuel) teams := by
          rw [break_tie, if_neg hlen, if_neg (by simp [hteams])]
        rw [hb, break_multi_way_tie_eq hc (break_tie games fuel) teams]
        have hrec : ∀ d : Stats, d ∈ teams →
            ∃ r, (if (teams.filter fun t => !(t.id == d.id)).length > 1
                then break_tie games fuel (teams.filter fun t => !(t.id == d.id))
                else some (teams.filter fun t => !(t.id == d.id))) = some r ∧
              (r.map Stats.id).Perm ((teams.filter fun t => !(t.id == d.id)).map Stats.id) := by
          intro d hd
          by_cases hgt : (teams.filter fun t => !(t.id == d.id)).length > 1
          · have hfit : (teams.filter fun t => !(t.id == d.id)).length < fuel := by
              have := filter_ne_id_length teams d hnd hd
              omega
            have hsub : List.Sublist (teams.filter fun t => !(t.id == d.id)) teams :=
              List.filter_sublist teams
            rcases break_tie_spec season hc fuel (teams.filter fun t => !(t.id == d.id)) hfit
              (fun t ht => hs t (hsub.mem ht)) (hnd.sublist (hsub.map Stats.id)) with
                ⟨r, hr, hrp⟩
            exact ⟨r, by rw [if_pos hgt]; exact hr, hrp⟩
          · refine ⟨_, ?_, List.Perm.refl _⟩
            rw [if_neg hgt]
        cases hfd : teams.find? fun t => dominantB games t teams with
        | some d =>
          have hdmem : d ∈ teams := List.mem_of_find?_eq_some hfd
          rcases hrec d hdmem with ⟨r, hr, hrp⟩
          refine ⟨stampTB d "Beat all tied teams" "†" :: r, by dsimp only; rw [hr]; rfl, ?_⟩
          simp only [List.map_cons, stampTB_id]
          exact (hrp.cons d.id).trans (filter_ne_id_perm teams d hnd hdmem)
        | none =>
          cases hfe : teams.find? fun t => dominatedB games t teams with
          | some e =>
            have hemem : e ∈ teams := List.mem_of_find?_eq_some hfe
            rcases hrec e hemem with ⟨r, hr, hrp⟩
            refine ⟨r ++ [stampTB e "Lost to all tied teams" "†"],
              by dsimp only; rw [hr]; rfl, ?_⟩
            rw [List.map_append]
            simp only [List.map_cons, List.map_nil, stampTB_id]
            refine (List.perm_append_singleton e.id (r.map Stats.id)).trans ?_
            exact ((hrp).cons e.id).trans (filter_ne_id_perm teams e hnd hemem)
          | none =>
            refine ⟨_, rfl, ?_⟩
            rw [List.map_map]
            have hps : (List.insertionSort fallbackRel
                (teams.map fun t => (t, rdcVal games t))).Perm
                (teams.map fun t => (t, rdcVal games t)) :=
              List.perm_insertionSort fallbackRel _
            have := hps.map (fun p => (stampTB p.1 "Multi-team tie resolution" "†").id)
            refine this.trans ?_
            rw [List.map_map]
            exact List.Perm.refl _

/-! Section: Claim C2 -/

/-- Fallback key order of the multi-way tie directly on stats rows: capped
run differential descending, runs against ascending, runs scored
descending. -/
def fallbackRelS (games : List Game) (a b : Stats) : Prop :=
  lex3 (-(rdcVal games a), a.runs_against, -a.runs_scored)
    (-(rdcVal games b), b.runs_against, -b.runs_scored)

/-- Stamping does not change the fallback key. -/
theorem fallbackRelS_stamp (games : List Game) (a b : Stats) (r y : String)
    (h : fallbackRelS games a b) :
    fallbackRelS games (stampTB a r y) (stampTB b r y) := h

/-- Claim C2: for a tied group of three or more rows, (a) when exactly one
member has a defined head-to-head percentage strictly above one half against
every other member, it is placed first with reason Beat all tied teams and
the dagger and the rest is resolved recursively and appended after; (b)
else, when exactly one member has a defined percentage strictly below one
half against every other member, it is placed last with reason Lost to all
tied teams and the dagger and the recursively resolved rest precedes it; (c)
else the whole group is sorted by capped differential descending, runs
against ascending, runs scored descending, every member stamped Multi-team
tie resolution with the dagger and no recursion happens. -/
theorem C2_multi_way_resolution (games : List Game) (teams : List Stats) (season : Nat)
    (hc : scoresConsistent games = true)
    (hs : ∀ t ∈ teams, t.season = season)
    (hnd : (teams.map Stats.id).Nodup)
    (h3 : 3 ≤ teams.length) :
    (∀ d ∈ teams, dominantB games d teams = true →
      (∀ x ∈ teams, dominantB games x teams = true → x = d) →
      ∃ r, break_tie games teams.length (teams.filter fun t => !(t.id == d.id)) = some r ∧
        break_tie games (teams.length + 1) teams =
          some (stampTB d "Beat all tied teams" "†" :: r)) ∧
    ((∀ x ∈ teams, dominantB games x teams = false) →
      ∀ e ∈ teams, dominatedB games e teams = true →
      (∀ x ∈ teams, dominatedB games x teams = true → x = e) →
      ∃ r, break_tie games teams.length (teams.filter fun t => !(t.id == e.id)) = some r ∧
        break_tie games (teams.length + 1) teams =
          some (r ++ [stampTB e "Lost to all tied teams" "†"])) ∧
    ((∀ x ∈ teams, dominantB games x teams = false) →
      (∀ x ∈ teams, dominatedB games x teams = false) →
      ∃ out, break_tie games (teams.length + 1) teams = some out ∧
        out.Perm (teams.map fun t => stampTB t "Multi-team tie resolution" "†") ∧
        out.Sorted (fallbackRelS games) ∧
        ∀ x ∈ out, x.tie_breaker_reason = "Multi-team tie resolution" ∧
          x.tie_breaker_symbol = "†") := by
  have hb : break_tie games (teams.length + 1) teams =
      break_multi_way_tie games (break_tie games teams.length) teams := by
    rw [break_tie, if_neg (by omega), if_neg (by simp; omega)]
  refine ⟨?_, ?_, ?_⟩
  · intro d hd hdom huniq
    obtain ⟨d', hfd⟩ : ∃ d', teams.find? (fun t => dominantB games t teams) = some d' := by
      cases hcase : teams.find? (fun t => dominantB games t teams) with
      | none =>
        have := List.find?_eq_none.mp hcase d hd
        rw [hdom] at this
        exact absurd rfl this
      | some y => exact ⟨y, rfl⟩
    have hpd' : dominantB games d' teams = true := by
      have h0 := List.find?_some hfd
      simpa using h0
    have hd'd : d' = d := huniq d' (List.mem_of_find?_eq_some hfd) hpd'
    subst hd'd
    have hgt : (teams.filter fun t => !(t.id == d'.id)).length > 1 := by
      have := filter_ne_id_length teams d' hnd hd
      omega
    have hfit : (teams.filter fun t => !(t.id == d'.id)).length < teams.length := by
      have := filter_ne_id_length teams d' hnd hd
      omega
    have hsub : List.Sublist (teams.filter fun t => !(t.id == d'.id)) teams :=
      List.filter_sublist teams
    rcases break_tie_spec season hc teams.length (teams.filter fun t => !(t.id == d'.id)) hfit
      (fun t ht => hs t (hsub.mem ht)) (hnd.sublist (hsub.map Stats.id)) with ⟨r, hr, -⟩
    refine ⟨r, hr, ?_⟩
    rw [hb, break_multi_way_tie_eq hc (break_tie games teams.length) teams, hfd]
    dsimp only
    rw [if_pos hgt, hr]
    rfl
  · intro hnone e he hdome huniq
    have hfd : teams.find? (fun t => dominantB games t teams) = none :=
      List.find?_eq_none.mpr fun x hx => by rw [hnone x hx]; simp
    obtain ⟨e', hfe⟩ : ∃ e', teams.find? (fun t => dominatedB games t teams) = some e' := by
      cases hcase : teams.find? (fun t => dominatedB games t teams) with
      | none =>
        have := List.find?_eq_none.mp hcase e he
        rw [hdome] at this
        exact absurd rfl this
      | some y => exact ⟨y, rfl⟩
    have hpe' : dominatedB games e' teams = true := by
      have h0 := List.find?_some hfe
      simpa using h0
    have he'e : e' = e := huniq e' (List.mem_of_find?_eq_some hfe) hpe'
    subst he'e
    have hgt : (teams.filter fun t => !(t.id == e'.id)).length > 1 := by
      have := filter_ne_id_length teams e' hnd he
      omega
    have hfit : (teams.filter fun t => !(t.id == e'.id)).length < teams.length := by
      have := filter_ne_id_length teams e' hnd he
      omega
    have hsub : List.Sublist (teams.filter fun t => !(t.id == e'.id)) teams :=
      List.filter_sublist teams
    rcases break_tie_spec season hc teams.length (teams.filter fun t => !(t.id == e'.id)) hfit
      (fun t ht => hs t (hsub.mem ht)) (hnd.sublist (hsub.map Stats.id)) with ⟨r, hr, -⟩
    refine ⟨r, hr, ?_⟩
    rw [hb, break_multi_way_tie_eq hc (break_tie games teams.length) teams, hfd, hfe]
    dsimp only
    rw [if_pos hgt, hr]
    rfl
  · intro hnone hnolose
    have hfd : teams.find? (fun t => dominantB games t teams) = none :=
      List.find?_eq_none.mpr fun x hx => by rw [hnone x hx]; simp
    have hfe : teams.find? (fun t => dominatedB games t teams) = none :=
      List.find?_eq_none.mpr fun x hx => by rw [hnolose x hx]; simp
    refine ⟨_, by
      rw [hb, break_multi_way_tie_eq hc (break_tie games teams.length) teams, hfd, hfe], ?_, ?_, ?_⟩
    · have hps := List.perm_insertionSort fallbackRel (teams.map fun t => (t, rdcVal games t))
      have := hps.map fun p => stampTB p.1 "Multi-team tie resolution" "†"
      refine this.trans ?_
      rw [List.map_map]
      exact List.Perm.refl _
    · have hsorted := List.sorted_insertionSort fallbackRel
        (teams.map fun t => (t, rdcVal games t))
      have hmemkey : ∀ x ∈ List.insertionSort fallbackRel
          (teams.map fun t => (t, rdcVal games t)), x.2 = rdcVal games x.1 := by
        intro x hx
        have hx2 : x ∈ teams.map fun t => (t, rdcVal games t) :=
          (List.mem_insertionSort fallbackRel).mp hx
        rcases List.mem_map.mp hx2 with ⟨t, -, rfl⟩
        rfl
      have hpw : (List.insertionSort fallbackRel
          (teams.map fun t => (t, rdcVal games t))).Pairwise
          (fun a b => fallbackRelS games a.1 b.1) := by
        refine List.Pairwise.imp_of_mem ?_ hsorted
        intro a b ha hb hr
        unfold fallbackRel at hr
        unfold fallbackRelS
        rw [← hmemkey a ha, ← hmemkey b hb]
        exact hr
      exact hpw.map _ fun a b h => fallbackRelS_stamp games a.1 b.1 _ _ h
    · intro x hx
      rcases List.mem_map.mp hx with ⟨p, -, rfl⟩
      exact ⟨rfl, rfl⟩

/-- Season game list of the C2 witness: team 1 beats teams 2 and 3 head to
head, team 2 beats team 3. -/
def gamesW2 : List Game :=
  [⟨1, 1, 2, some 7, some 3, none⟩,
   ⟨1, 1, 3, some 6, some 2, none⟩,
   ⟨1, 2, 3, some 4, some 3, none⟩]

/-- First tied row of the C2 witness. -/
def stW2a : Stats := ⟨51, 1, 1, 2, 1, 0, 4, 0, 0, 0, 0, "", ""⟩

/-- Second tied row of the C2 witness. -/
def stW2b : Stats := ⟨52, 2, 1, 2, 1, 0, 4, 0, 0, 0, 0, "", ""⟩

/-- Third tied row of the C2 witness. -/
def stW2c : Stats := ⟨53, 3, 1, 2, 1, 0, 4, 0, 0, 0, 0, "", ""⟩

/-- Tied group of the C2 witness. -/
def teamsW2 : List Stats := [stW2a, stW2b, stW2c]

/-- Witness for C2 at a concrete three-way tied group. -/
theorem C2_witness :
    (∀ d ∈ teamsW2, dominantB gamesW2 d teamsW2 = true →
      (∀ x ∈ teamsW2, dominantB gamesW2 x teamsW2 = true → x = d) →
      ∃ r, break_tie gamesW2 teamsW2.length
          (teamsW2.filter fun t => !(t.id == d.id)) = some r ∧
        break_tie gamesW2 (teamsW2.length + 1) teamsW2 =
          some (stampTB d "Beat all tied teams" "†" :: r)) ∧
    ((∀ x ∈ teamsW2, dominantB gamesW2 x teamsW2 = false) →
      ∀ e ∈ teamsW2, dominatedB gamesW2 e teamsW2 = true →
      (∀ x ∈ teamsW2, dominatedB gamesW2 x teamsW2 = true → x = e) →
      ∃ r, break_tie gamesW2 teamsW2.length
          (teamsW2.filter fun t => !(t.id == e.id)) = some r ∧
        break_tie gamesW2 (teamsW2.length + 1) teamsW2 =
          some (r ++ [stampTB e "Lost to all tied teams" "†"])) ∧
    ((∀ x ∈ teamsW2, dominantB gamesW2 x teamsW2 = false) →
      (∀ x ∈ teamsW2, dominatedB gamesW2 x teamsW2 = false) →
      ∃ out, break_tie gamesW2 (teamsW2.length + 1) teamsW2 = some out ∧
        out.Perm (teamsW2.map fun t => stampTB t "Multi-team tie resolution" "†") ∧
        out.Sorted (fallbackRelS gamesW2) ∧
        ∀ x ∈ out, x.tie_breaker_reason = "Multi-team tie resolution" ∧
          x.tie_breaker_symbol = "†") :=
  C2_multi_way_resolution gamesW2 teamsW2 1 (by decide) (by decide) (by decide) (by decide)

/-! Section: Claims C8 and C9, loop machinery -/

/-- Removing one row by key is a sublist. -/
theorem removeFirstById_sublist (x : Stats) :
    ∀ l : List Stats, List.Sublist (removeFirstById x l) l
  | [] => List.Sublist.refl _
  | y :: ys => by
    rw [removeFirstById]
    by_cases hy : y.id = x.id
    · rw [if_pos (by simp [hy])]
      exact List.sublist_cons_self y ys
    · rw [if_neg (by simp [hy])]
      exact (removeFirstById_sublist x ys).cons₂ y

/-- Removal by key acts as erase on the key list. -/
theorem removeFirstById_map (x : Stats) :
    ∀ l : List Stats, (removeFirstById x l).map Stats.id = (l.map Stats.id).erase x.id
  | [] => rfl
  | y :: ys => by
    rw [removeFirstById, List.map_cons, List.erase_cons]
    by_cases hy : y.id = x.id
    · rw [if_pos (by simp [hy]), if_pos (by simp [hy])]
    · rw [if_neg (by simp [hy]), if_neg (by simp [hy]), List.map_cons,
        removeFirstById_map x ys]

/-- The removal loop is a sublist. -/
theorem removeAll_sublist : ∀ (xs l : List Stats), List.Sublist (removeAll xs l) l
  | [], _ => List.Sublist.refl _
  | x :: xs, l => by
    rw [removeAll, List.foldl_cons]
    exact List.Sublist.trans (removeAll_sublist xs (removeFirstById x l))
      (removeFirstById_sublist x l)

/-- The removal loop acts as list difference on the key lists. -/
theorem removeAll_map : ∀ (xs l : List Stats),
    (removeAll xs l).map Stats.id = (l.map Stats.id).diff (xs.map Stats.id)
  | [], l => by simp [removeAll, List.diff_nil]
  | x :: xs, l => by
    rw [removeAll, List.foldl_cons, List.map_cons, List.diff_cons, ← removeFirstById_map x l]
    exact removeAll_map xs (removeFirstById x l)

/-- Removing a present, duplicate-free batch of keys from a duplicate-free
list leaves a complement: batch plus difference is the whole, up to
permutation. -/
theorem diff_append_perm : ∀ (xs l : List Nat), l.Nodup → xs.Nodup →
    (∀ x ∈ xs, x ∈ l) → (xs ++ l.diff xs).Perm l
  | [], l, _, _, _ => by simp
  | x :: xs, l, hl, hxs, hsub => by
    rw [List.diff_cons]
    have hx : x ∈ l := hsub x (by simp)
    have hnx : x ∉ xs := (List.nodup_cons.mp hxs).1
    have h1 : (xs ++ (l.erase x).diff xs).Perm (l.erase x) :=
      diff_append_perm xs (l.erase x) (hl.erase x) (List.nodup_cons.mp hxs).2
        fun y hy => (List.mem_erase_of_ne (fun e => hnx (by rw [← e]; exact hy))).mpr
          (hsub y (List.mem_cons_of_mem x hy))
    rw [List.cons_append]
    exact (h1.cons x).trans (List.perm_cons_erase hx).symm

/-- Under score consistency, a common season and distinct keys, the
group-consuming loop with fuel at least the list length returns a final
order whose keys are a permutation of the input keys. -/
theorem spo_loop_spec {games : List Game} (season : Nat)
    (hc : scoresConsistent games = true) :
    ∀ (fuel : Nat) (remaining : List Stats),
      remaining.length ≤ fuel →
      (∀ t ∈ remaining, t.season = season) →
      (remaining.map Stats.id).Nodup →
      ∃ out, spo_loop games fuel remaining = some out ∧
        (out.map Stats.id).Perm (remaining.map Stats.id)
  | fuel, [], _, _, _ => ⟨[], by cases fuel <;> rfl, List.Perm.refl _⟩
  | 0, r :: rest, hfuel, _, _ => absurd hfuel (by simp)
  | fuel + 1, leader :: rest, hfuel, hs, hnd => by
    have hmem : leader ∈ (leader :: rest).filter (fun t => sameWLT t leader) :=
      List.mem_filter.mpr ⟨by simp, by simp [sameWLT]⟩
    have htsub : List.Sublist ((leader :: rest).filter (fun t => sameWLT t leader))
        (leader :: rest) := List.filter_sublist _
    have htnd : (((leader :: rest).filter (fun t => sameWLT t leader)).map Stats.id).Nodup :=
      hnd.sublist (htsub.map Stats.id)
    have hts : ∀ t ∈ (leader :: rest).filter (fun t => sameWLT t leader), t.season = season :=
      fun t ht => hs t (htsub.mem ht)
    have htlen : 1 ≤ ((leader :: rest).filter (fun t => sameWLT t leader)).length :=
      List.length_pos_of_mem hmem
    obtain ⟨resolved, hres, hresp⟩ :
        ∃ resolved, (if ((leader :: rest).filter (fun t => sameWLT t leader)).length == 1
          then some ((leader :: rest).filter (fun t => sameWLT t leader))
          else break_tie games
            (((leader :: rest).filter (fun t => sameWLT t leader)).length + 1)
            ((leader :: rest).filter (fun t => sameWLT t leader))) = some resolved ∧
        (resolved.map Stats.id).Perm
          (((leader :: rest).filter (fun t => sameWLT t leader)).map Stats.id) := by
      by_cases h1 : ((leader :: rest).filter (fun t => sameWLT t leader)).length == 1
      · exact ⟨_, by rw [if_pos h1], List.Perm.refl _⟩
      · rcases break_tie_spec season hc
          (((leader :: rest).filter (fun t => sameWLT t leader)).length + 1)
          ((leader :: rest).filter (fun t => sameWLT t leader)) (by omega) hts htnd with
            ⟨r, hr, hp⟩
        exact ⟨r, by rw [if_neg h1]; exact hr, hp⟩
    have hresnd : (resolved.map Stats.id).Nodup := (hresp.nodup_iff).mpr htnd
    have hressub : ∀ x ∈ resolved.map Stats.id, x ∈ (leader :: rest).map Stats.id :=
      fun x hx => (htsub.map Stats.id).mem (hresp.mem_iff.mp hx)
    have hbig := diff_append_perm (resolved.map Stats.id) ((leader :: rest).map Stats.id)
      hnd hresnd hressub
    rw [← removeAll_map resolved (leader :: rest)] at hbig
    have hreslen : resolved.length =
        ((leader :: rest).filter (fun t => sameWLT t leader)).length := by
      have := hresp.length_eq
      simpa using this
    have hnewlen : (removeAll resolved (leader :: rest)).length ≤ fuel := by
      have hlen := hbig.length_eq
      simp only [List.length_append, List.length_map, List.length_cons] at hlen
      simp only [List.length_cons] at hfuel
      omega
    have hnewsub : List.Sublist (removeAll resolved (leader :: rest)) (leader :: rest) :=
      removeAll_sublist resolved (leader :: rest)
    have hnewnd : ((removeAll resolved (leader :: rest)).map Stats.id).Nodup :=
      hnd.sublist (hnewsub.map Stats.id)
    have hnews : ∀ t ∈ removeAll resolved (leader :: rest), t.season = season :=
      fun t ht => hs t (hnewsub.mem ht)
    rcases spo_loop_spec season hc fuel (removeAll resolved (leader :: rest))
      hnewlen hnews hnewnd with ⟨restOut, hro, hrop⟩
    refine ⟨resolved ++ restOut, ?_, ?_⟩
    · rw [spo_loop]
      rw [hres, Option.some_bind, hro]
      rfl
    · rw [List.map_append]
      exact (hrop.append_left (resolved.map Stats.id)).trans hbig

/-- Ranks assigned from position i are the consecutive run starting at
i plus one. -/
theorem assignRanksFrom_map_rank : ∀ (l : List Stats) (i : Nat),
    (assignRanksFrom i l).map Stats.tie_breaker_rank = List.range' (i + 1) l.length
  | [], _ => rfl
  | s :: rest, i => by
    rw [assignRanksFrom, List.map_cons, assignRanksFrom_map_rank rest (i + 1)]
    rfl

/-- Rank assignment keeps the keys in order. -/
theorem assignRanksFrom_map_id : ∀ (l : List Stats) (i : Nat),
    (assignRanksFrom i l).map Stats.id = l.map Stats.id
  | [], _ => rfl
  | s :: rest, i => by
    rw [assignRanksFrom, List.map_cons, List.map_cons, assignRanksFrom_map_id rest (i + 1)]

/-- Clearing the annotations keeps the key. -/
@[simp] theorem clearTB_id (s : Stats) : (clearTB s).id = s.id := rfl

/-- Clearing the annotations keeps the season. -/
@[simp] theorem clearTB_season (s : Stats) : (clearTB s).season = s.season := rfl

/-- Claim C8: on a season with consistent scores and rows with distinct keys
all in that season, apply_spo_standings succeeds, the assigned ranks over the
final standings are exactly 1..N in final order, and every input row appears
exactly once in the final standings (keys are a permutation of the input
keys). -/
theorem C8_rank_contiguity (games : List Game) (statsList : List Stats) (season : Nat)
    (hc : scoresConsistent games = true)
    (hs : ∀ t ∈ statsList, t.season = season)
    (hnd : (statsList.map Stats.id).Nodup) :
    ∃ final, apply_spo_standings games statsList = some final ∧
      final.map Stats.tie_breaker_rank = List.range' 1 statsList.length ∧
      (final.map Stats.id).Perm (statsList.map Stats.id) := by
  have hseedp : (spo_seed statsList).Perm (statsList.map clearTB) :=
    List.perm_insertionSort primaryRel _
  have hseedid : ((spo_seed statsList).map Stats.id).Perm (statsList.map Stats.id) := by
    have h0 := hseedp.map Stats.id
    rw [List.map_map] at h0
    have hfun : Stats.id ∘ clearTB = Stats.id := funext fun s => rfl
    rw [hfun] at h0
    exact h0
  have hseeds : ∀ t ∈ spo_seed statsList, t.season = season := by
    intro t ht
    have ht2 : t ∈ statsList.map clearTB := hseedp.mem_iff.mp ht
    rcases List.mem_map.mp ht2 with ⟨s, hsmem, rfl⟩
    exact hs s hsmem
  have hseednd : ((spo_seed statsList).map Stats.id).Nodup := hseedid.nodup_iff.mpr hnd
  rcases spo_loop_spec season hc (spo_seed statsList).length (spo_seed statsList)
    (le_refl _) hseeds hseednd with ⟨fin, hfin, hfinp⟩
  refine ⟨assignRanks fin, ?_, ?_, ?_⟩
  · rw [apply_spo_standings]
    rw [hfin]
    rfl
  · rw [assignRanks, assignRanksFrom_map_rank fin 0]
    have hflen : fin.length = statsList.length := by
      have h1 := hfinp.length_eq
      rw [List.length_map, List.length_map] at h1
      rw [h1, hseedp.length_eq, List.length_map]
    rw [hflen]
  · rw [assignRanks, assignRanksFrom_map_id fin 0]
    exact hfinp.trans hseedid

/-- Claim C9: under consistent scores, one season and distinct keys, the
resolver terminates on every group with fuel one more than the group size
(each recursive call strictly shrinks the group), and the group-consuming
loop terminates with fuel equal to the list length (each iteration removes
at least one row). -/
theorem C9_resolver_terminates (games : List Game) (teams : List Stats) (season : Nat)
    (hc : scoresConsistent games = true)
    (hs : ∀ t ∈ teams, t.season = season)
    (hnd : (teams.map Stats.id).Nodup) :
    (∃ out, break_tie games (teams.length + 1) teams = some out) ∧
    (∃ out, spo_loop games teams.length teams = some out) := by
  constructor
  · rcases break_tie_spec season hc (teams.length + 1) teams (by omega) hs hnd with ⟨o, ho, -⟩
    exact ⟨o, ho⟩
  · rcases spo_loop_spec season hc teams.length teams (le_refl _) hs hnd with ⟨o, ho, -⟩
    exact ⟨o, ho⟩

/-- Season game list of the C8 witness. -/
def gamesW8 : List Game :=
  [⟨1, 1, 2, some 5, some 3, none⟩, ⟨1, 3, 4, some 2, some 2, none⟩]

/-- Stats rows of the C8 witness. -/
def statsW8 : List Stats :=
  [⟨61, 1, 1, 1, 0, 0, 2, 0, 5, 3, 0, "", ""⟩,
   ⟨62, 2, 1, 0, 1, 0, 0, 0, 3, 5, 0, "", ""⟩,
   ⟨63, 3, 1, 0, 0, 1, 1, 0, 2, 2, 0, "", ""⟩,
   ⟨64, 4, 1, 0, 0, 1, 1, 0, 2, 2, 0, "", ""⟩]

/-- Witness for C8 at a concrete season of four rows. -/
theorem C8_witness :
    ∃ final, apply_spo_standings gamesW8 statsW8 = some final ∧
      final.map Stats.tie_breaker_rank = List.range' 1 statsW8.length ∧
      (final.map Stats.id).Perm (statsW8.map Stats.id) :=
  C8_rank_contiguity gamesW8 statsW8 1 (by decide) (by decide) (by decide)

/-- Season game list of the C9 witness. -/
def gamesW9 : List Game :=
  [⟨1, 1, 2, some 4, some 1, none⟩, ⟨1, 2, 3, some 6, some 6, none⟩]

/-- Stats rows of the C9 witness. -/
def teamsW9 : List Stats :=
  [⟨71, 1, 1, 1, 1, 0, 2, 0, 0, 0, 0, "", ""⟩,
   ⟨72, 2, 1, 1, 1, 0, 2, 0, 0, 0, 0, "", ""⟩,
   ⟨73, 3, 1, 1, 1, 0, 2, 0, 0, 0, 0, "", ""⟩]

/-- Witness for C9 at a concrete tied group of three rows. -/
theorem C9_witness :
    (∃ out, break_tie gamesW9 (teamsW9.length + 1) teamsW9 = some out) ∧
    (∃ out, spo_loop gamesW9 teamsW9.length teamsW9 = some out) :=
  C9_resolver_terminates gamesW9 teamsW9 1 (by decide) (by decide) (by decide)

/-- Season game list of the C1 witness: team 1 beat team 2 in their only
meeting. -/
def gamesW1 : List Game := [⟨1, 1, 2, some 5, some 3, none⟩]

/-- First row of the C1 witness. -/
def stW1a : Stats := ⟨41, 1, 1, 1, 0, 0, 2, 0, 0, 0, 0, "", ""⟩

/-- Second row of the C1 witness. -/
def stW1b : Stats := ⟨42, 2, 1, 1, 0, 0, 2, 0, 0, 0, 0, "", ""⟩

/-- Witness for C1: with head-to-head percentages one and zero, rule one is
decisive and team 1 is placed first, both rows stamped with the star. -/
theorem C1_witness :
    break_two_way_tie gamesW1 stW1a stW1b =
      some [stampTB stW1a "Head-to-head record" "*",
        stampTB stW1b "Head-to-head record" "*"] := by
  have hr1 : head_to_head_record gamesW1 stW1a stW1b.team = some (1, 0, 0) := by decide
  have hr2 : head_to_head_record gamesW1 stW1b stW1a.team = some (0, 1, 0) := by decide
  have hp1 : head_to_head_percentage gamesW1 stW1a stW1b.team = some (some 1) := by
    rw [head_to_head_percentage, hr1]
    norm_num
  have hp2 : head_to_head_percentage gamesW1 stW1b stW1a.team = some (some 0) := by
    rw [head_to_head_percentage, hr2]
    norm_num
  have h := (C1_two_way_rule_chain gamesW1 stW1a stW1b (by decide)).1 1 0 hp1 hp2 (by norm_num)
  rw [h, if_pos (by norm_num)]

end SloPitch
